import Mathlib

/-!
Verification of the facility-booking UDP service (repository
`Iyzyman/distributed-go`) against its natural-language specification.

The development shallowly embeds the Go sources:

* `common/utils.go` and `common/marshal.go` — the binary wire codec;
* `server/state.go` (second, authoritative version in the file) — the data
  model and seeded store;
* `server/ops.go` (second, authoritative version in the file, lines 446-980)
  — the operation handlers, dispatcher and duplicate-suppression layer.

Modelling conventions:

* Go byte slices are `List Nat` whose entries are `< 256`.
* Go `string` values are Lean `String`s whose characters all have code points
  `< 256`; `[]byte(s)` / `string(b)` are `strToBytes` / `bytesToStr`.
* Machine integers are `Nat` / `Int`; wrap-around is explicit (`% 2 ^ 32`,
  `% 256`, `wrap32`, `u8ofInt`).  Go's truncated division and remainder on
  `int` are `Int.tdiv` / `Int.tmod`.
* `time.Time` / `time.Now()` is a single integer parameter `now` threaded
  through each packet dispatch; `time.Duration` addition is integer addition.
* Go maps (`facilityData`, `history`) are association lists; map iteration
  order is modelled as list order, and map insertion as consing (reads see
  the newest binding first).
* Network sends (`conn.WriteToUDP`) are collected in returned lists instead
  of performed; a `*net.UDPAddr` is modelled by its string form.
-/

namespace FBS

/-! ## Byte primitives (`encoding/binary`, big-endian) -/

/-- Decimal digits of `n` (least significant last), with explicit fuel so the
recursion is structural; `fuel ≥ 1 + number of digits` renders fully. -/
def natDigits : Nat → Nat → List Char
  | 0, _ => []
  | fuel + 1, n =>
    if n < 10 then [Char.ofNat (48 + n)]
    else natDigits fuel (n / 10) ++ [Char.ofNat (48 + n % 10)]

/-- Go's `%d` rendering of a non-negative integer (decimal). -/
def natToStr (n : Nat) : String := ⟨natDigits (n + 1) n⟩

/-- Go's `%d` rendering of a signed integer (decimal, `-` sign). -/
def intToStr (x : Int) : String :=
  if x < 0 then "-" ++ natToStr (-x).toNat else natToStr x.toNat

/-- Go's `strings.TrimSuffix`: drop one trailing occurrence of the suffix if
present. -/
def trimSuffix (s suffix : String) : String :=
  if suffix.data.isSuffixOf s.data then
    ⟨s.data.take (s.data.length - suffix.data.length)⟩
  else s

/-- Big-endian byte encoding of `n` on `w` bytes, most significant first;
models `binary.BigEndian.PutUint16/PutUint32/PutUint64` (which keep the low
`8*w` bits of the value). -/
def bytesBE : Nat → Nat → List Nat
  | 0, _ => []
  | w + 1, n => bytesBE w (n / 256) ++ [n % 256]

/-- Big-endian byte decoding; models `binary.BigEndian.Uint16/Uint32/Uint64`
applied to a `w`-byte slice. -/
def readBE (bs : List Nat) : Nat :=
  bs.foldl (fun acc b => acc * 256 + b) 0

/-- Go's conversion `uint8(x)` of a (possibly negative) integer: the low
8 bits, i.e. the two's-complement residue in `[0, 256)`. -/
def u8ofInt (x : Int) : Nat := (x % 256).toNat

/-- Go's conversion `uint32(x)` for `x : int32`: the two's-complement residue
in `[0, 2^32)`. -/
def u32ofInt (x : Int) : Nat := (x % 2 ^ 32).toNat

/-- Go's conversion `int32(n)` for `n : uint32`: reinterpret the low 32 bits
as a signed value. -/
def i32ofU32 (n : Nat) : Int :=
  if n < 2 ^ 31 then (n : Int) else (n : Int) - 2 ^ 32

/-- Go's `int32` addition result for an ideal integer value `x`:
two's-complement wrap-around into `[-2^31, 2^31)`. -/
def wrap32 (x : Int) : Int := (x + 2 ^ 31) % 2 ^ 32 - 2 ^ 31

/-- The bytes of a Go string (`[]byte(s)`); each character of the modelled
string is a single byte. -/
def strToBytes (s : String) : List Nat := s.data.map Char.toNat

/-- A Go string built from raw bytes (`string(b)`). -/
def bytesToStr (l : List Nat) : String := ⟨l.map Char.ofNat⟩

/-! ## Wire messages (`common/utils.go` struct declarations) -/

/-- Operation code of `QueryAvailability` (`common/utils.go`). -/
def OpQueryAvailability : Nat := 1

/-- Operation code of `BookFacility`. -/
def OpBookFacility : Nat := 2

/-- Operation code of `ChangeBooking`. -/
def OpChangeBooking : Nat := 3

/-- Operation code of `MonitorAvailability`. -/
def OpMonitorAvailability : Nat := 4

/-- Operation code of `CancelBooking`. -/
def OpCancelBooking : Nat := 5

/-- Operation code of `AddParticipant`. -/
def OpAddParticipant : Nat := 6

/-- `RequestMessage` from `common/utils.go`; the field defaults model Go's
zero value (`var req RequestMessage`). -/
structure RequestMessage where
  opCode : Nat := 0
  requestID : Nat := 0
  facilityName : String := ""
  daysList : List Nat := []
  startDay : Nat := 0
  startHour : Nat := 0
  startMinute : Nat := 0
  endDay : Nat := 0
  endHour : Nat := 0
  endMinute : Nat := 0
  confirmationID : String := ""
  offsetMinutes : Int := 0
  monitorPeriod : Nat := 0
  participantName : String := ""
deriving DecidableEq, Repr, Inhabited

/-- `ReplyMessage` from `common/utils.go`. -/
structure ReplyMessage where
  requestID : Nat := 0
  opCode : Nat := 0
  status : Int := 0
  data : String := ""
deriving DecidableEq, Repr, Inhabited

/-! ## Codec (`common/utils.go` helpers, `common/marshal.go`) -/

/-- `writeString` from `common/utils.go`: append a 2-byte big-endian length
(`uint16(len)`, hence truncated mod `2^16`) followed by the raw bytes. -/
def writeString (buf : List Nat) (s : String) : List Nat :=
  buf ++ bytesBE 2 s.length ++ strToBytes s

/-- Read one byte off the stream; models an `offset+1 > len(data)` bounds
check followed by `data[offset]`. -/
def readU8 (data : List Nat) (err : String) : Except String (Nat × List Nat) :=
  match data with
  | [] => .error err
  | b :: rest => .ok (b, rest)

/-- Read `k` bytes off the stream; models an `offset+k > len(data)` bounds
check followed by `data[offset : offset+k]`. -/
def takeN (data : List Nat) (k : Nat) (err : String) :
    Except String (List Nat × List Nat) :=
  if data.length < k then .error err else .ok (data.take k, data.drop k)

/-- `readString` from `common/utils.go`: a 2-byte big-endian length prefix
followed by that many raw bytes. -/
def readString (data : List Nat) : Except String (String × List Nat) :=
  match takeN data 2 "not enough bytes to read string length" with
  | .error e => .error e
  | .ok (lb, rest) =>
    match takeN rest (readBE lb) "not enough bytes for string content" with
    | .error e => .error e
    | .ok (sb, rest2) => .ok (bytesToStr sb, rest2)

/-- `MarshalRequest` from `common/marshal.go`: opcode byte, 8-byte big-endian
request id, then the opcode-dependent payload. -/
def MarshalRequest (req : RequestMessage) : Except String (List Nat) :=
  let buf := req.opCode :: bytesBE 8 req.requestID
  if req.opCode = OpQueryAvailability then
    let buf := writeString buf req.facilityName
    if req.daysList.length > 255 then
      .error "too many days in DaysList (max 255)"
    else
      .ok (buf ++ [req.daysList.length] ++ req.daysList)
  else if req.opCode = OpBookFacility then
    .ok (writeString buf req.facilityName ++
      [req.startDay, req.startHour, req.startMinute,
       req.endDay, req.endHour, req.endMinute])
  else if req.opCode = OpChangeBooking then
    .ok (writeString buf req.confirmationID ++ bytesBE 4 (u32ofInt req.offsetMinutes))
  else if req.opCode = OpMonitorAvailability then
    .ok (writeString buf req.facilityName ++ bytesBE 4 req.monitorPeriod)
  else if req.opCode = OpCancelBooking then
    .ok (writeString buf req.confirmationID)
  else if req.opCode = OpAddParticipant then
    .ok (writeString (writeString buf req.confirmationID) req.participantName)
  else
    .error ("unknown OpCode " ++ natToStr req.opCode)

/-- `UnmarshalRequest` from `common/marshal.go`.  Unlisted fields keep Go's
zero value; trailing bytes after the payload are ignored, as in the source. -/
def UnmarshalRequest (data : List Nat) : Except String RequestMessage :=
  match readU8 data "data too short for opcode" with
  | .error e => .error e
  | .ok (op, r1) =>
    match takeN r1 8 "data too short for requestID" with
    | .error e => .error e
    | .ok (ridB, r2) =>
      let rid := readBE ridB
      if op = OpQueryAvailability then
        match readString r2 with
        | .error e => .error e
        | .ok (fn, r3) =>
          match readU8 r3 "not enough bytes for days count" with
          | .error e => .error e
          | .ok (nd, r4) =>
            match takeN r4 nd "not enough bytes for days list" with
            | .error e => .error e
            | .ok (ds, _) =>
              .ok { opCode := op, requestID := rid, facilityName := fn, daysList := ds }
      else if op = OpBookFacility then
        match readString r2 with
        | .error e => .error e
        | .ok (fn, r3) =>
          match takeN r3 6 "not enough bytes for booking times" with
          | .error e => .error e
          | .ok (tb, _) =>
            .ok { opCode := op, requestID := rid, facilityName := fn,
                  startDay := tb.getD 0 0, startHour := tb.getD 1 0,
                  startMinute := tb.getD 2 0, endDay := tb.getD 3 0,
                  endHour := tb.getD 4 0, endMinute := tb.getD 5 0 }
      else if op = OpChangeBooking then
        match readString r2 with
        | .error e => .error e
        | .ok (cid, r3) =>
          match takeN r3 4 "not enough bytes for offsetMinutes" with
          | .error e => .error e
          | .ok (ob, _) =>
            .ok { opCode := op, requestID := rid, confirmationID := cid,
                  offsetMinutes := i32ofU32 (readBE ob) }
      else if op = OpMonitorAvailability then
        match readString r2 with
        | .error e => .error e
        | .ok (fn, r3) =>
          match takeN r3 4 "not enough bytes for monitorPeriod" with
          | .error e => .error e
          | .ok (pb, _) =>
            .ok { opCode := op, requestID := rid, facilityName := fn,
                  monitorPeriod := readBE pb }
      else if op = OpCancelBooking then
        match readString r2 with
        | .error e => .error e
        | .ok (cid, _) =>
          .ok { opCode := op, requestID := rid, confirmationID := cid }
      else if op = OpAddParticipant then
        match readString r2 with
        | .error e => .error e
        | .ok (cid, r3) =>
          match readString r3 with
          | .error e => .error e
          | .ok (pn, _) =>
            .ok { opCode := op, requestID := rid, confirmationID := cid,
                  participantName := pn }
      else
        .error ("unknown OpCode " ++ natToStr op)

/-- `MarshalReply` from `common/marshal.go`: opcode byte, 8-byte request id,
4-byte status (`uint32(rep.Status)`), length-prefixed data.  The Go function
always returns a nil error, so the model is total. -/
def MarshalReply (rep : ReplyMessage) : List Nat :=
  writeString (rep.opCode :: (bytesBE 8 rep.requestID ++ bytesBE 4 (u32ofInt rep.status)))
    rep.data

/-- `UnmarshalReply` from `common/marshal.go`. -/
def UnmarshalReply (data : List Nat) : Except String ReplyMessage :=
  match readU8 data "reply data too short for opcode" with
  | .error e => .error e
  | .ok (op, r1) =>
    match takeN r1 8 "reply too short for requestID" with
    | .error e => .error e
    | .ok (ridB, r2) =>
      match takeN r2 4 "reply too short for status" with
      | .error e => .error e
      | .ok (stB, r3) =>
        match readString r3 with
        | .error e => .error e
        | .ok (s, _) =>
          .ok { requestID := readBE ridB, opCode := op,
                status := i32ofU32 (readBE stB), data := s }

/-! ## Server data model (`server/state.go`, second version) -/

/-- Invocation-semantics mode (`SemanticsAtLeastOnce` / `SemanticsAtMostOnce`
string constants in `server/state.go`). -/
inductive Semantics where
  | AtLeastOnce
  | AtMostOnce
deriving DecidableEq, Repr

/-- `RequestKey` from `server/state.go`: a `(clientAddr.String(), RequestID)`
pair used for duplicate suppression. -/
structure RequestKey where
  addr : String
  requestID : Nat
deriving DecidableEq, Repr

/-- `Booking` from `server/state.go`.  The six time fields are Go `uint8`s
(documented ranges: day 0..6, hour 0..23, minute 0..59). -/
structure Booking where
  confirmationID : String
  startDay : Nat
  startHour : Nat
  startMinute : Nat
  endDay : Nat
  endHour : Nat
  endMinute : Nat
  participants : List String
deriving DecidableEq, Repr

/-- `FacilityInfo` from `server/state.go`. -/
structure FacilityInfo where
  name : String
  bookings : List Booking
deriving DecidableEq, Repr

/-- The `facilityData map[string]*FacilityInfo` field, modelled as an
association list keyed by facility name. -/
abbrev Store := List (String × FacilityInfo)

/-- `MonitorRegistration` from `server/state.go`; `expiresAt` models the
`time.Time` expiry instant as an integer. -/
structure MonitorRegistration where
  clientAddr : String
  facilityName : String
  expiresAt : Int
deriving DecidableEq, Repr

/-- The mutable server data that operation handlers read and write: the
booking store (guarded by `dataLock`) and the monitor subscriptions
(guarded by `monitorLock`). -/
structure OpState where
  store : Store
  subs : List MonitorRegistration
deriving DecidableEq, Repr

/-- `ServerState` from `server/state.go` (minus the socket): semantics mode,
duplicate-suppression history, facility data, and monitor subscriptions. -/
structure ServerState where
  semantics : Semantics
  history : List (RequestKey × ReplyMessage)
  facilityData : Store
  monitorSubs : List MonitorRegistration
deriving DecidableEq, Repr

/-- Map lookup `s.facilityData[name]`. -/
def storeFind : Store → String → Option FacilityInfo
  | [], _ => none
  | (n, fac) :: rest, name => if n = name then some fac else storeFind rest name

/-- Map lookup `s.history[key]`. -/
def historyFind : List (RequestKey × ReplyMessage) → RequestKey → Option ReplyMessage
  | [], _ => none
  | (k, r) :: rest, key => if k = key then some r else historyFind rest key

/-- The single ASCII apostrophe character, used by several Go format strings. -/
def squote : String := ⟨[Char.ofNat 39]⟩

/-- The seeded store built by `NewServerState` in `server/state.go`:
`RoomA` with bookings `BKG-10000` (Mon 09:00-10:00) and `BKG-10001`
(Tue 14:00-15:30), and `Lab1` with `BKG-20000` (Wed 10:00-12:00). -/
def seededStore : Store :=
  [("RoomA", ⟨"RoomA",
     [⟨"BKG-10000", 0, 9, 0, 0, 10, 0, []⟩,
      ⟨"BKG-10001", 1, 14, 0, 1, 15, 30, []⟩]⟩),
   ("Lab1", ⟨"Lab1",
     [⟨"BKG-20000", 2, 10, 0, 2, 12, 0, []⟩]⟩)]

/-- `NewServerState` from `server/state.go`: empty history and monitor list,
seeded facility data. -/
def NewServerState (sem : Semantics) : ServerState :=
  ⟨sem, [], seededStore, []⟩

/-! ## Time arithmetic and overlap test (`server/ops.go`) -/

/-- `toAbsoluteMinutes` from `server/ops.go`: absolute minutes from Monday
00:00 (`int32(day)*1440 + int32(hour)*60 + int32(minute)`; exact for `uint8`
inputs, which cannot overflow `int32`). -/
def toAbsoluteMinutes (day hour minute : Nat) : Int :=
  (day : Int) * 1440 + (hour : Int) * 60 + (minute : Int)

/-- Absolute start minute of a booking. -/
def absStart (b : Booking) : Int :=
  toAbsoluteMinutes b.startDay b.startHour b.startMinute

/-- Absolute end minute of a booking. -/
def absEnd (b : Booking) : Int :=
  toAbsoluteMinutes b.endDay b.endHour b.endMinute

/-- `timesOverlap` from `server/ops.go`: the half-open intervals
`[start1, end1)` and `[start2, end2)` intersect. -/
def timesOverlap (start1 end1 start2 end2 : Int) : Prop :=
  start1 < end2 ∧ start2 < end1

instance (a b c d : Int) : Decidable (timesOverlap a b c d) :=
  inferInstanceAs (Decidable (_ ∧ _))

/-- `fromAbsoluteMinutes` from `server/ops.go`: Go `int` division and
remainder (truncated, `Int.tdiv` / `Int.tmod`) followed by `uint8`
conversions.  On negative or out-of-range totals the `uint8` casts wrap. -/
def fromAbsoluteMinutes (total : Int) : Nat × Nat × Nat :=
  let day := total.tdiv 1440
  let rem := total.tmod 1440
  let hour := rem.tdiv 60
  let minute := rem.tmod 60
  (u8ofInt day, u8ofInt hour, u8ofInt minute)

/-! ## Monitor notification (`notifySubscribers`, `server/ops.go` 525-554) -/

/-- The callback frame built inside `notifySubscribers`: opcode 100,
request id 0, status 0. -/
def callbackFrame (facility updateMsg : String) : ReplyMessage :=
  { requestID := 0, opCode := 100, status := 0,
    data := "Facility=" ++ facility ++ " updated: " ++ updateMsg }

/-- `notifySubscribers`: keep exactly the subscriptions with
`now.Before(ExpiresAt)`; send the callback frame to each kept subscription
whose facility matches.  Returns the new state and the list of
`(subscription, frame)` sends in registry order. -/
def notifySubscribers (st : OpState) (now : Int) (facility updateMsg : String) :
    OpState × List (MonitorRegistration × ReplyMessage) :=
  (⟨st.store, st.subs.filter (fun sub => decide (now < sub.expiresAt))⟩,
   (st.subs.filter
      (fun sub => sub.facilityName = facility && decide (now < sub.expiresAt))).map
     (fun sub => (sub, callbackFrame facility updateMsg)))

/-- Result of one operation handler: updated state, callback sends,
reply data string, reply status. -/
structure HandlerResult where
  st : OpState
  sends : List (MonitorRegistration × ReplyMessage)
  msg : String
  status : Int
deriving DecidableEq, Repr

/-! ## Booking-list helpers shared by the handlers

Each Go handler scans `s.facilityData` (map iteration, modelled in list
order) and within a facility scans `fac.Bookings` for the first booking with
the requested confirmation id.  The helpers below perform those first-match
scans. -/

/-- First booking with the given confirmation id. -/
def findInBookings : List Booking → String → Option Booking
  | [], _ => none
  | b :: rest, c =>
    if b.confirmationID = c then some b else findInBookings rest c

/-- Remove the first booking with the given confirmation id, returning it and
the remaining list in order (`append(bs[:i], bs[i+1:]...)`). -/
def extractBooking : List Booking → String → Option (Booking × List Booking)
  | [], _ => none
  | b :: rest, c =>
    if b.confirmationID = c then some (b, rest)
    else (extractBooking rest c).map (fun p => (p.1, b :: p.2))

/-- First facility (in map order) containing the confirmation id, together
with the found booking and the facility's remaining bookings. -/
def locateBooking : Store → String → Option (String × Booking × List Booking)
  | [], _ => none
  | (n, fac) :: rest, c =>
    match extractBooking fac.bookings c with
    | some (b, rem) => some (n, b, rem)
    | none => locateBooking rest c

/-- First booking with the given confirmation id across the whole store. -/
def findBooking (s : Store) (c : String) : Option Booking :=
  (locateBooking s c).map (fun p => p.2.1)

/-! ## Query (`availableTimingsForDay` 559-616, `handleQuery` 625-660) -/

/-- Go's `fmt.Sprintf` `%02d` verb for a non-negative value: zero-pad to two
digits (wider values print in full). -/
def pad2 (n : Nat) : String :=
  if n < 10 then "0" ++ natToStr n else natToStr n

/-- Go's `%v` rendering of a `[]string`: elements separated by single spaces
inside brackets. -/
def fmtStrList (xs : List String) : String :=
  "[" ++ String.intercalate " " xs ++ "]"

/-- The clipped intra-day intervals gathered by `availableTimingsForDay`:
skip bookings with `EndDay < day` or `StartDay > day`, then clip the
absolute-minute interval to the day boundaries. -/
def dayIntervals (day : Nat) (bookings : List Booking) : List (Int × Int) :=
  let dayStart : Int := (day : Int) * 1440
  let dayEnd : Int := ((day : Int) + 1) * 1440
  bookings.foldl
    (fun acc bk =>
      if bk.endDay < day ∨ day < bk.startDay then acc
      else
        acc ++ [(max (absStart bk) dayStart, min (absEnd bk) dayEnd)])
    []

/-- One step of the insertion sort in `availableTimingsForDay`: place the key
after every element whose start is not strictly greater (the Go loop shifts
only elements with `start > key.start`). -/
def insertIv (x : Int × Int) : List (Int × Int) → List (Int × Int)
  | [] => [x]
  | y :: ys => if x.1 < y.1 then x :: y :: ys else y :: insertIv x ys

/-- The insertion sort in `availableTimingsForDay`: insert each interval in
turn into the sorted prefix. -/
def sortIvs (ivs : List (Int × Int)) : List (Int × Int) :=
  ivs.foldl (fun acc x => insertIv x acc) []

/-- Render an absolute-minute value the way `availableTimingsForDay` does:
`%02d:%02d` applied to `current/60` and `current%60` — note these are
absolute, not intra-day, values. -/
def fmtAbs (current : Int) : String :=
  pad2 (current.tdiv 60).toNat ++ ":" ++ pad2 (current.tmod 60).toNat

/-- The gap-collection loop of `availableTimingsForDay`: walk the sorted
intervals accumulating `start-end, ` gap strings, then the final gap up to
`24:00` if any. -/
def availLoop (dayEnd : Int) : Int → List (Int × Int) → String → String
  | current, [], acc =>
    if current < dayEnd then acc ++ fmtAbs current ++ "-24:00" else acc
  | current, iv :: rest, acc =>
    let acc := if current < iv.1 then
        acc ++ fmtAbs current ++ "-" ++ fmtAbs iv.1 ++ ", "
      else acc
    availLoop dayEnd (if current < iv.2 then iv.2 else current) rest acc

/-- `availableTimingsForDay` from `server/ops.go` 559-616. -/
def availableTimingsForDay (day : Nat) (bookings : List Booking) : String :=
  let dayStart : Int := (day : Int) * 1440
  let dayEnd : Int := ((day : Int) + 1) * 1440
  let s := availLoop dayEnd dayStart (sortIvs (dayIntervals day bookings)) ""
  let s := trimSuffix s ", "
  if s = "" then "Fully booked" else s

/-- The per-booking line of the `Current bookings` section in `handleQuery`,
including the optional participants line. -/
def queryBookingLine (day : Nat) (bk : Booking) : String :=
  if bk.startDay ≤ day ∧ day ≤ bk.endDay then
    "  - " ++ bk.confirmationID ++ ": " ++
      pad2 bk.startHour ++ ":" ++ pad2 bk.startMinute ++ " to " ++
      pad2 bk.endHour ++ ":" ++ pad2 bk.endMinute ++ "\n" ++
    (if bk.participants.length > 0 then
        "      Participants: " ++ fmtStrList bk.participants ++ "\n"
      else "")
  else ""

/-- `handleQuery` from `server/ops.go` 625-660: per requested day, a `Day n:`
header, the `Current bookings` section (or `None`), and the
`Available timings` line. -/
def handleQuery (store : Store) (name : String) (days : List Nat) : String :=
  match storeFind store name with
  | none => "Error: Facility " ++ squote ++ name ++ squote ++ " not found"
  | some fac =>
    days.foldl
      (fun result day =>
        let bookingsStr := fac.bookings.foldl
          (fun bs bk => bs ++ queryBookingLine day bk) ""
        let bookingsStr := if bookingsStr = "" then "  None\n" else bookingsStr
        result ++ "Day " ++ natToStr day ++ ":\n" ++
          "Current bookings:\n" ++ bookingsStr ++
          "Available timings: " ++ availableTimingsForDay day fac.bookings ++ "\n\n")
      ("Facility " ++ name ++ " availability:\n")

/-! ## Book (`handleBookFacility`, `server/ops.go` 675-726) -/

/-- Replace the bookings of every store entry with the given facility name
(a Go map has one slot per name, which the handler mutates in place). -/
def setFacBookings (s : Store) (name : String) (bs : List Booking) : Store :=
  s.map (fun p => if p.1 = name then (p.1, ⟨p.2.name, bs⟩) else p)

/-- `handleBookFacility` from `server/ops.go` 675-726.  `now` supplies the
`time.Now().UnixNano()` value used both for the generated id `BKG-<n>` and
for monitor-expiry checks. -/
def handleBookFacility (st : OpState) (now : Int) (req : RequestMessage) :
    HandlerResult :=
  match storeFind st.store req.facilityName with
  | none =>
    ⟨st, [], "Facility " ++ squote ++ req.facilityName ++ squote ++ " not found", -1⟩
  | some fac =>
    let newStart := toAbsoluteMinutes req.startDay req.startHour req.startMinute
    let newEnd := toAbsoluteMinutes req.endDay req.endHour req.endMinute
    if newEnd ≤ newStart then
      ⟨st, [], "Error: End time must be after start time.", -1⟩
    else if fac.bookings.any
        (fun bk => decide (timesOverlap newStart newEnd (absStart bk) (absEnd bk))) then
      ⟨st, [], "Time conflict with an existing booking.", 1⟩
    else
      let newID := "BKG-" ++ intToStr now
      let nb : Booking := ⟨newID, req.startDay, req.startHour, req.startMinute,
        req.endDay, req.endHour, req.endMinute, []⟩
      let st1 : OpState :=
        ⟨setFacBookings st.store req.facilityName (fac.bookings ++ [nb]), st.subs⟩
      let (st2, sends) :=
        notifySubscribers st1 now req.facilityName ("New booking created: " ++ newID)
      ⟨st2, sends,
        "Booked " ++ squote ++ req.facilityName ++ squote ++ " from Day " ++
          natToStr req.startDay ++ " (" ++ pad2 req.startHour ++ ":" ++
          pad2 req.startMinute ++ ") to Day " ++ natToStr req.endDay ++ " (" ++
          pad2 req.endHour ++ ":" ++ pad2 req.endMinute ++ "). ID=" ++ newID, 0⟩

/-! ## Change (`handleChangeBooking`, `server/ops.go` 739-830) -/

/-- The per-facility body of `handleChangeBooking`, for the first facility
containing the confirmation id: validate the shifted interval, test it
against the remaining bookings, and either restore the original booking (at
the end of the list, as `append` does), or reinsert the updated one.
Returns the new facility, reply message, status, and the notification
message on success. -/
def changeFacility (fac : FacilityInfo) (c : String) (offset : Int) :
    Option (FacilityInfo × String × Int × Option String) :=
  match extractBooking fac.bookings c with
  | none => none
  | some (b, rem) =>
    let oldStart := absStart b
    let oldEnd := absEnd b
    let newStartAbs := wrap32 (oldStart + offset)
    let newEndAbs := wrap32 (oldEnd + offset)
    if newEndAbs ≤ newStartAbs then
      some (fac, "Error: End time must be after start time.", -1, none)
    else if rem.any (fun bk =>
        decide (timesOverlap newStartAbs newEndAbs (absStart bk) (absEnd bk))) then
      some (⟨fac.name, rem ++ [b]⟩, "Time conflict with an existing booking.", 1, none)
    else
      let s3 := fromAbsoluteMinutes newStartAbs
      let e3 := fromAbsoluteMinutes newEndAbs
      let updated : Booking :=
        ⟨c, s3.1, s3.2.1, s3.2.2, e3.1, e3.2.1, e3.2.2, b.participants⟩
      some (⟨fac.name, rem ++ [updated]⟩,
        "Changed booking " ++ c ++ " by offset " ++ intToStr offset ++
          " minutes successfully.", 0,
        some ("Booking " ++ c ++ " changed using offset " ++ intToStr offset ++
          " min: Day " ++ natToStr s3.1 ++ " (" ++ pad2 s3.2.1 ++ ":" ++
          pad2 s3.2.2 ++ ") -> Day " ++ natToStr e3.1 ++ " (" ++ pad2 e3.2.1 ++
          ":" ++ pad2 e3.2.2 ++ ")"))

/-- Apply `changeFacility` to the first facility (in map order) containing the
confirmation id, leaving every other facility untouched.  Returns the new
store, the facility name, the reply message and status, and the optional
notification message. -/
def changeInStore : Store → String → Int →
    Option (Store × String × String × Int × Option String)
  | [], _, _ => none
  | (n, fac) :: rest, c, off =>
    match changeFacility fac c off with
    | some (fac2, msg, status, nmsg) => some ((n, fac2) :: rest, n, msg, status, nmsg)
    | none =>
      (changeInStore rest c off).map
        (fun r => ((n, fac) :: r.1, r.2.1, r.2.2.1, r.2.2.2.1, r.2.2.2.2))

/-- `handleChangeBooking` from `server/ops.go` 739-830 (the offset-based
second version): shift the located booking by `offset` minutes,
transactionally. -/
def handleChangeBooking (st : OpState) (now : Int) (c : String) (offset : Int) :
    HandlerResult :=
  match changeInStore st.store c offset with
  | none => ⟨st, [], "Error: Booking " ++ c ++ " not found", -1⟩
  | some (store2, facName, msg, status, nmsg) =>
    match nmsg with
    | none => ⟨⟨store2, st.subs⟩, [], msg, status⟩
    | some m =>
      let (st2, sends) := notifySubscribers ⟨store2, st.subs⟩ now facName m
      ⟨st2, sends, msg, status⟩

/-! ## Monitor registration (`handleMonitorRegistration`, 833-859) -/

/-- `handleMonitorRegistration` from `server/ops.go` 833-859: verify the
facility exists, then append a subscription expiring at `now + period`
(seconds, modelled as integer addition). -/
def handleMonitorRegistration (st : OpState) (now : Int) (clientAddr : String)
    (req : RequestMessage) : HandlerResult :=
  match storeFind st.store req.facilityName with
  | none =>
    ⟨st, [], "Facility " ++ squote ++ req.facilityName ++ squote ++ " not found", -1⟩
  | some _ =>
    let sub : MonitorRegistration :=
      ⟨clientAddr, req.facilityName, now + (req.monitorPeriod : Int)⟩
    ⟨⟨st.store, st.subs ++ [sub]⟩, [],
      "Monitoring " ++ req.facilityName ++ " for " ++ natToStr req.monitorPeriod ++
        " seconds.", 0⟩

/-! ## Cancel (`handleCancelBooking`, `server/ops.go` 862-883) -/

/-- Remove the first booking with the given confirmation id from the first
facility (in map order) that contains it; `none` when absent everywhere. -/
def cancelInStore : Store → String → Option (Store × String)
  | [], _ => none
  | (n, fac) :: rest, c =>
    match extractBooking fac.bookings c with
    | some (_, rem) => some ((n, ⟨fac.name, rem⟩) :: rest, n)
    | none => (cancelInStore rest c).map (fun r => ((n, fac) :: r.1, r.2))

/-- `handleCancelBooking` from `server/ops.go` 862-883: remove the booking
and notify on success; report `not found (already canceled?)` with status 0
otherwise. -/
def handleCancelBooking (st : OpState) (now : Int) (c : String) : HandlerResult :=
  match cancelInStore st.store c with
  | some (store2, facName) =>
    let (st2, sends) :=
      notifySubscribers ⟨store2, st.subs⟩ now facName ("Booking " ++ c ++ " canceled")
    ⟨st2, sends, "Canceled booking " ++ c, 0⟩
  | none =>
    ⟨st, [], "Booking " ++ c ++ " not found (already canceled?)", 0⟩

/-! ## AddParticipant (`handleAddParticipant`, `server/ops.go` 886-918) -/

/-- Append the participant to the first booking with the given confirmation
id (`foundBooking.Participants = append(..., participant)`); `none` when the
id is absent. -/
def addInBookings : List Booking → String → String → Option (List Booking)
  | [], _, _ => none
  | b :: rest, c, pname =>
    if b.confirmationID = c then
      some ({ b with participants := b.participants ++ [pname] } :: rest)
    else (addInBookings rest c pname).map (fun bs => b :: bs)

/-- Apply `addInBookings` to the first facility (in map order) containing the
confirmation id. -/
def addInStore : Store → String → String → Option (Store × String)
  | [], _, _ => none
  | (n, fac) :: rest, c, pname =>
    match addInBookings fac.bookings c pname with
    | some bs => some ((n, ⟨fac.name, bs⟩) :: rest, n)
    | none => (addInStore rest c pname).map (fun r => ((n, fac) :: r.1, r.2))

/-- `handleAddParticipant` from `server/ops.go` 886-918: unconditionally
append the participant to the located booking (non-idempotent by design). -/
def handleAddParticipant (st : OpState) (now : Int) (c pname : String) :
    HandlerResult :=
  match addInStore st.store c pname with
  | some (store2, facName) =>
    let (st2, sends) := notifySubscribers ⟨store2, st.subs⟩ now facName
      ("Participant " ++ pname ++ " added to booking " ++ c)
    ⟨st2, sends, "Added participant=" ++ pname ++ " to booking=" ++ c, 0⟩
  | none =>
    ⟨st, [], "Error: Booking " ++ c ++ " not found", -1⟩

/-! ## Dispatcher (`processOperation` 940-979, `handlePacket` 460-510) -/

/-- Result of `processOperation`: new operation state, callback sends, and
the reply for the client. -/
structure ProcessResult where
  st : OpState
  sends : List (MonitorRegistration × ReplyMessage)
  reply : ReplyMessage
deriving DecidableEq, Repr

/-- `processOperation` from `server/ops.go` 940-979: dispatch on the opcode,
echoing opcode and request id into the reply; unknown opcodes yield status
`-1` and `Unknown OpCode <n>`. -/
def processOperation (st : OpState) (now : Int) (clientAddr : String)
    (req : RequestMessage) : ProcessResult :=
  let rep : ReplyMessage :=
    { requestID := req.requestID, opCode := req.opCode, status := 0, data := "" }
  if req.opCode = OpQueryAvailability then
    ⟨st, [], { rep with data := handleQuery st.store req.facilityName req.daysList }⟩
  else if req.opCode = OpBookFacility then
    let r := handleBookFacility st now req
    ⟨r.st, r.sends, { rep with data := r.msg, status := r.status }⟩
  else if req.opCode = OpChangeBooking then
    let r := handleChangeBooking st now req.confirmationID req.offsetMinutes
    ⟨r.st, r.sends, { rep with data := r.msg, status := r.status }⟩
  else if req.opCode = OpMonitorAvailability then
    let r := handleMonitorRegistration st now clientAddr req
    ⟨r.st, r.sends, { rep with data := r.msg, status := r.status }⟩
  else if req.opCode = OpCancelBooking then
    let r := handleCancelBooking st now req.confirmationID
    ⟨r.st, r.sends, { rep with data := r.msg, status := r.status }⟩
  else if req.opCode = OpAddParticipant then
    let r := handleAddParticipant st now req.confirmationID req.participantName
    ⟨r.st, r.sends, { rep with data := r.msg, status := r.status }⟩
  else
    ⟨st, [], { rep with
      status := -1,
      data := "Unknown OpCode " ++ natToStr req.opCode }⟩

/-- Result of dispatching one datagram: the new server state and the
datagrams sent, in order, as `(destination address, bytes)` pairs. -/
structure PacketResult where
  state : ServerState
  sends : List (String × List Nat)
deriving DecidableEq, Repr

/-- `handlePacket` from `server/ops.go` 460-510: unmarshal (dropping the
datagram on failure), consult the duplicate cache when the semantics is
at-most-once (resending the cached reply on a hit), otherwise execute the
operation, cache the reply under at-most-once, and send it.  Callback sends
performed inside the handler precede the client reply. -/
def handlePacket (s : ServerState) (data : List Nat) (clientAddr : String)
    (now : Int) : PacketResult :=
  match UnmarshalRequest data with
  | .error _ => ⟨s, []⟩
  | .ok req =>
    let key : RequestKey := ⟨clientAddr, req.requestID⟩
    if s.semantics = Semantics.AtMostOnce then
      match historyFind s.history key with
      | some cached => ⟨s, [(clientAddr, MarshalReply cached)]⟩
      | none =>
        let r := processOperation ⟨s.facilityData, s.monitorSubs⟩ now clientAddr req
        ⟨⟨s.semantics, (key, r.reply) :: s.history, r.st.store, r.st.subs⟩,
          r.sends.map (fun p => (p.1.clientAddr, MarshalReply p.2)) ++
            [(clientAddr, MarshalReply r.reply)]⟩
    else
      let r := processOperation ⟨s.facilityData, s.monitorSubs⟩ now clientAddr req
      ⟨⟨s.semantics, s.history, r.st.store, r.st.subs⟩,
        r.sends.map (fun p => (p.1.clientAddr, MarshalReply p.2)) ++
          [(clientAddr, MarshalReply r.reply)]⟩

/-! ## Interleaving model of concurrent dispatch (`handlePacket` 478-500)

`handlePacket` runs on a fresh goroutine per datagram.  Under at-most-once
its dedup logic is three separately-locked critical sections:

* lines 479-481 — acquire `historyLock`, read `history[key]`, release;
* line 493 — `processOperation` (runs with `historyLock` released);
* lines 497-499 — acquire `historyLock`, write `history[key] = reply`, release.

The model below makes each of those an atomic action and lets two dispatches
of the *same* datagram (same peer, same request id) interleave their actions
in any order consistent with each thread's program order.  The guards encode
the thread's program order and the duplicate check (`exec` fires only after
a `check` that missed). -/

/-- Per-thread progress through the at-most-once dispatch path:
`checked` records whether the duplicate look-up ran and what it returned;
`reply` records the handler's reply once `exec` ran. -/
structure ThreadCtx where
  checked : Bool
  found : Option ReplyMessage
  reply : Option ReplyMessage
deriving DecidableEq, Repr

/-- Shared and per-thread state of two concurrent dispatches of the same
request: the duplicate-suppression history and the booking/monitor state are
shared; each thread carries its own `ThreadCtx`. -/
structure ConcState where
  hist : List (RequestKey × ReplyMessage)
  op : OpState
  execCount : Nat
  t1 : ThreadCtx
  t2 : ThreadCtx
deriving DecidableEq, Repr

/-- One atomic action of a dispatch thread (`true` = thread 1). -/
inductive ConcAction where
  | check (t : Bool)
  | exec (t : Bool)
  | insert (t : Bool)
deriving DecidableEq, Repr

/-- Thread context of the selected thread. -/
def ConcState.ctx (cs : ConcState) (t : Bool) : ThreadCtx :=
  if t then cs.t1 else cs.t2

/-- Replace the thread context of the selected thread. -/
def ConcState.setCtx (cs : ConcState) (t : Bool) (c : ThreadCtx) : ConcState :=
  if t then { cs with t1 := c } else { cs with t2 := c }

/-- Execute one atomic action.  `check` is the locked duplicate look-up,
`exec` is the handler execution on a cache miss (performed with
`historyLock` released, as in the source), and `insert` is the locked cache
insertion.  Actions violating the thread's program order are no-ops. -/
def concStep (req : RequestMessage) (clientAddr : String) (now : Int)
    (cs : ConcState) : ConcAction → ConcState
  | .check t =>
    let c := cs.ctx t
    if c.checked then cs
    else cs.setCtx t
      { c with checked := true,
               found := historyFind cs.hist ⟨clientAddr, req.requestID⟩ }
  | .exec t =>
    let c := cs.ctx t
    if c.checked ∧ c.found = none ∧ c.reply = none then
      let r := processOperation cs.op now clientAddr req
      { cs.setCtx t { c with reply := some r.reply } with
          op := r.st, execCount := cs.execCount + 1 }
    else cs
  | .insert t =>
    match (cs.ctx t).reply with
    | some rep =>
      { cs with hist := (⟨clientAddr, req.requestID⟩, rep) :: cs.hist }
    | none => cs

/-- Run a schedule of atomic actions from left to right. -/
def concRun (req : RequestMessage) (clientAddr : String) (now : Int)
    (sched : List ConcAction) (cs : ConcState) : ConcState :=
  sched.foldl (concStep req clientAddr now) cs

/-- Initial state of two concurrent dispatches against the seeded store under
at-most-once: empty history, no progress on either thread. -/
def concInit : ConcState :=
  ⟨[], ⟨seededStore, []⟩, 0, ⟨false, none, none⟩, ⟨false, none, none⟩⟩

/-! ## Specification-level predicates -/

/-- Two bookings do not intersect under the half-open overlap test on
absolute minutes. -/
def noOverlap (b1 b2 : Booking) : Prop :=
  ¬ timesOverlap (absStart b1) (absEnd b1) (absStart b2) (absEnd b2)

instance : DecidableRel noOverlap :=
  fun _ _ => inferInstanceAs (Decidable (¬ _))

/-- The booking-store invariant of spec §8: every booking ends strictly after
it starts, and within each facility every pair of distinct bookings is
non-overlapping under the half-open test on absolute minutes. -/
def storeInvariant (s : Store) : Prop :=
  ∀ p ∈ s,
    (∀ b ∈ p.2.bookings, absStart b < absEnd b) ∧
    p.2.bookings.Pairwise noOverlap

instance (s : Store) : Decidable (storeInvariant s) := by
  unfold storeInvariant
  infer_instance

/-- A well-formed Go string: at most 65535 bytes, every character a byte. -/
def strWF (s : String) : Prop :=
  s.length ≤ 65535 ∧ ∀ c ∈ s.data, c.toNat < 256

/-- A well-formed `QueryAvailability` request: only that opcode's fields are
populated. -/
def mkQueryReq (rid : Nat) (fn : String) (days : List Nat) : RequestMessage :=
  { opCode := OpQueryAvailability, requestID := rid, facilityName := fn,
    daysList := days }

/-- A well-formed `BookFacility` request. -/
def mkBookReq (rid : Nat) (fn : String) (sd sh sm ed eh em : Nat) :
    RequestMessage :=
  { opCode := OpBookFacility, requestID := rid, facilityName := fn,
    startDay := sd, startHour := sh, startMinute := sm,
    endDay := ed, endHour := eh, endMinute := em }

/-- A well-formed `ChangeBooking` request. -/
def mkChangeReq (rid : Nat) (cid : String) (off : Int) : RequestMessage :=
  { opCode := OpChangeBooking, requestID := rid, confirmationID := cid,
    offsetMinutes := off }

/-- A well-formed `MonitorAvailability` request. -/
def mkMonitorReq (rid : Nat) (fn : String) (mp : Nat) : RequestMessage :=
  { opCode := OpMonitorAvailability, requestID := rid, facilityName := fn,
    monitorPeriod := mp }

/-- A well-formed `CancelBooking` request. -/
def mkCancelReq (rid : Nat) (cid : String) : RequestMessage :=
  { opCode := OpCancelBooking, requestID := rid, confirmationID := cid }

/-- A well-formed `AddParticipant` request. -/
def mkAddReq (rid : Nat) (cid pn : String) : RequestMessage :=
  { opCode := OpAddParticipant, requestID := rid, confirmationID := cid,
    participantName := pn }

/-- A well-formed request message: a known opcode with only that opcode's
fields populated (the rest at Go's zero value), fields within their Go types'
ranges, strings of at most 65535 bytes, day lists of at most 255 entries. -/
def reqWF (req : RequestMessage) : Prop :=
  (∃ rid fn days, rid < 2 ^ 64 ∧ strWF fn ∧ days.length ≤ 255 ∧
    (∀ d ∈ days, d < 256) ∧ req = mkQueryReq rid fn days) ∨
  (∃ rid fn sd sh sm ed eh em, rid < 2 ^ 64 ∧ strWF fn ∧
    sd < 256 ∧ sh < 256 ∧ sm < 256 ∧ ed < 256 ∧ eh < 256 ∧ em < 256 ∧
    req = mkBookReq rid fn sd sh sm ed eh em) ∨
  (∃ rid cid off, rid < 2 ^ 64 ∧ strWF cid ∧ -2 ^ 31 ≤ off ∧ off < 2 ^ 31 ∧
    req = mkChangeReq rid cid off) ∨
  (∃ rid fn mp, rid < 2 ^ 64 ∧ strWF fn ∧ mp < 2 ^ 32 ∧
    req = mkMonitorReq rid fn mp) ∨
  (∃ rid cid, rid < 2 ^ 64 ∧ strWF cid ∧ req = mkCancelReq rid cid) ∨
  (∃ rid cid pn, rid < 2 ^ 64 ∧ strWF cid ∧ strWF pn ∧
    req = mkAddReq rid cid pn)

/-- A well-formed reply message: fields within their Go types' ranges and a
data string of at most 65535 bytes. -/
def repWF (rep : ReplyMessage) : Prop :=
  rep.requestID < 2 ^ 64 ∧ rep.opCode < 256 ∧
  -2 ^ 31 ≤ rep.status ∧ rep.status < 2 ^ 31 ∧ strWF rep.data

/-- Number of bookings carrying a given confirmation id across the store. -/
def countID (s : Store) (c : String) : Nat :=
  (s.map (fun p => p.2.bookings.countP (fun b => decide (b.confirmationID = c)))).sum

/-- The duplicate datagram used to exhibit the at-most-once race: an
`AddParticipant` request (non-idempotent) for the seeded booking. -/
def c5req : RequestMessage :=
  { opCode := OpAddParticipant, requestID := 7,
    confirmationID := "BKG-10000", participantName := "alice" }

/-- A schedule the released-lock dispatch admits: both threads pass the
duplicate check before either inserts its reply into the cache. -/
def c5sched : List ConcAction :=
  [.check true, .check false, .exec true, .insert true, .exec false, .insert false]

/-! ## Basic lemmas -/

set_option maxRecDepth 200000

/-- Looking up the key just inserted at the front of the history returns the
inserted reply. -/
theorem historyFind_cons_self (h : List (RequestKey × ReplyMessage))
    (k : RequestKey) (r : ReplyMessage) :
    historyFind ((k, r) :: h) k = some r := by
  simp [historyFind]

/-! ## C2 — the booking-store invariant is not preserved (code bug)

`handleChangeBooking` validates `newEnd > newStart` on the shifted absolute
minutes, but then stores `fromAbsoluteMinutes` of those values, whose `uint8`
casts wrap for negative totals.  From the seeded store,
`Change("BKG-10000", -541)` shifts Monday 09:00-10:00 to the absolute
interval `[-1, 59)`; the stored booking becomes start `(0,0,255)` (absolute
minute 255) and end `(0,0,59)` (absolute minute 59), so `end > start` fails
although the handler reports success. -/

/-- C2: the seeded store satisfies the spec §8 invariant, yet one
`Change` operation with offset `-541` succeeds (status 0) and leaves a store
that violates it. -/
theorem c2_change_breaks_invariant :
    storeInvariant seededStore ∧
    (handleChangeBooking ⟨seededStore, []⟩ 0 "BKG-10000" (-541)).status = 0 ∧
    ¬ storeInvariant
        (handleChangeBooking ⟨seededStore, []⟩ 0 "BKG-10000" (-541)).st.store := by
  decide

/-! ## C5 — duplicate suppression is not atomic (code bug)

`handlePacket` releases `historyLock` between the duplicate look-up
(ops.go 479-481) and the cache insertion (ops.go 497-499), and runs the
handler (ops.go 493) with the lock released.  The schedule `c5sched` is
therefore admitted by the code, and in it both threads pass the duplicate
check before either inserts, so the non-idempotent handler runs twice for
one `(peer, request-id)` key. -/

/-- C5: under at-most-once, two concurrent dispatches of the same
`AddParticipant` datagram can both execute the handler — the participant is
appended twice — because the duplicate check and the cache insertion are
separately locked. -/
theorem c5_double_execution :
    (concRun c5req "9.9.9.9:1" 0 c5sched concInit).execCount = 2 ∧
    (findBooking (concRun c5req "9.9.9.9:1" 0 c5sched concInit).op.store
        "BKG-10000").map Booking.participants = some ["alice", "alice"] := by
  decide

/-! ## C8 — empty day blocks render absolute hours (code bug)

`availableTimingsForDay` prints `current/60 : current%60` where `current`
counts absolute minutes from Monday 00:00, not intra-day minutes.  For any
empty day `d ≥ 1` the free interval is rendered `<24*d>:00-24:00` instead of
the specified `00:00-24:00`. -/

/-- C8: no seeded `RoomA` booking intersects day 3, the day block renders
`None`, but the available-timings line reads `72:00-24:00`, not the
`00:00-24:00` that the claim requires. -/
theorem c8_empty_day_renders_absolute_hours :
    handleQuery seededStore "RoomA" [3] =
      "Facility RoomA availability:\nDay 3:\nCurrent bookings:\n  None\n" ++
        "Available timings: 72:00-24:00\n\n" ∧
    (∃ fac, storeFind seededStore "RoomA" = some fac ∧
      (∀ b ∈ fac.bookings, ¬ (b.startDay ≤ 3 ∧ 3 ≤ b.endDay)) ∧
      availableTimingsForDay 3 fac.bookings = "72:00-24:00") ∧
    "72:00-24:00" ≠ "00:00-24:00" := by
  decide

/-! ## C10 — monitor expiry -/

/-- C10: in any notification pass at a time `now ≥ expiry`, the subscription
receives no callback and is removed from the registry (`notifySubscribers`
keeps exactly the subscriptions with `now < expiry` and sends only to kept,
matching ones). -/
theorem c10_monitor_expiry (st : OpState) (now : Int) (fac msg : String)
    (sub : MonitorRegistration) (h : sub.expiresAt ≤ now) :
    (∀ p ∈ (notifySubscribers st now fac msg).2, p.1 ≠ sub) ∧
    sub ∉ (notifySubscribers st now fac msg).1.subs := by
  constructor
  · intro p hp
    simp only [notifySubscribers, List.mem_map] at hp
    obtain ⟨s, hs, rfl⟩ := hp
    simp only [List.mem_filter, Bool.and_eq_true, decide_eq_true_eq] at hs
    intro heq
    have hss : s = sub := heq
    rw [hss] at hs
    omega
  · intro hmem
    simp only [notifySubscribers, List.mem_filter, decide_eq_true_eq] at hmem
    omega

/-- Witness for C10 at a concrete expired subscription. -/
theorem c10_witness :
    (⟨"9.9.9.9:1", "RoomA", 3⟩ : MonitorRegistration).expiresAt ≤ 3 ∧
    ((∀ p ∈ (notifySubscribers ⟨seededStore, [⟨"9.9.9.9:1", "RoomA", 3⟩]⟩ 3
          "RoomA" "m").2, p.1 ≠ (⟨"9.9.9.9:1", "RoomA", 3⟩ : MonitorRegistration)) ∧
      (⟨"9.9.9.9:1", "RoomA", 3⟩ : MonitorRegistration) ∉
        (notifySubscribers ⟨seededStore, [⟨"9.9.9.9:1", "RoomA", 3⟩]⟩ 3
          "RoomA" "m").1.subs) :=
  ⟨by decide,
   c10_monitor_expiry ⟨seededStore, [⟨"9.9.9.9:1", "RoomA", 3⟩]⟩ 3 "RoomA" "m"
     ⟨"9.9.9.9:1", "RoomA", 3⟩ (by decide)⟩

/-! ## C1 — at-most-once replay -/

/-- C1: under at-most-once, after a request datagram is processed (unmarshal
succeeded, no cached entry for its `(peer, request-id)` key), dispatching the
identical datagram again changes nothing — not the booking store, not the
monitor registry, not the history — and sends exactly one datagram to the
peer whose bytes equal the first dispatch's reply bytes (its last send). -/
theorem c1_at_most_once_replay
    (s0 : ServerState) (data : List Nat) (p : String) (now1 now2 : Int)
    (req : RequestMessage)
    (hsem : s0.semantics = Semantics.AtMostOnce)
    (hok : UnmarshalRequest data = .ok req)
    (hmiss : historyFind s0.history ⟨p, req.requestID⟩ = none) :
    (handlePacket (handlePacket s0 data p now1).state data p now2).state =
      (handlePacket s0 data p now1).state ∧
    ∃ bytes,
      (handlePacket (handlePacket s0 data p now1).state data p now2).sends =
        [(p, bytes)] ∧
      (handlePacket s0 data p now1).sends.getLast? = some (p, bytes) := by
  rcases hr : processOperation ⟨s0.facilityData, s0.monitorSubs⟩ now1 p req
    with ⟨pst, psends, prep⟩
  have h1 : handlePacket s0 data p now1 =
      ⟨⟨s0.semantics, (⟨p, req.requestID⟩, prep) :: s0.history, pst.store, pst.subs⟩,
        psends.map (fun q => (q.1.clientAddr, MarshalReply q.2)) ++
          [(p, MarshalReply prep)]⟩ := by
    simp only [handlePacket, hok, hsem, hmiss, reduceIte, hr]
  have h2 : handlePacket
      (⟨s0.semantics, (⟨p, req.requestID⟩, prep) :: s0.history,
        pst.store, pst.subs⟩ : ServerState) data p now2 =
      ⟨⟨s0.semantics, (⟨p, req.requestID⟩, prep) :: s0.history,
        pst.store, pst.subs⟩, [(p, MarshalReply prep)]⟩ := by
    simp only [handlePacket, hok, hsem, reduceIte, historyFind_cons_self]
  rw [h1, h2]
  exact ⟨rfl, MarshalReply prep, rfl, by simp⟩

/-- Witness for C1: a concrete `CancelBooking` datagram replayed against the
freshly seeded at-most-once server. -/
theorem c1_witness :
    (NewServerState Semantics.AtMostOnce).semantics = Semantics.AtMostOnce ∧
    UnmarshalRequest [5, 0, 0, 0, 0, 0, 0, 0, 42, 0, 1, 90] =
      .ok { opCode := 5, requestID := 42, confirmationID := "Z" } ∧
    historyFind (NewServerState Semantics.AtMostOnce).history ⟨"1.2.3.4:5", 42⟩ =
      none ∧
    ((handlePacket
        (handlePacket (NewServerState Semantics.AtMostOnce)
          [5, 0, 0, 0, 0, 0, 0, 0, 42, 0, 1, 90] "1.2.3.4:5" 11).state
        [5, 0, 0, 0, 0, 0, 0, 0, 42, 0, 1, 90] "1.2.3.4:5" 12).state =
      (handlePacket (NewServerState Semantics.AtMostOnce)
        [5, 0, 0, 0, 0, 0, 0, 0, 42, 0, 1, 90] "1.2.3.4:5" 11).state ∧
    ∃ bytes,
      (handlePacket
          (handlePacket (NewServerState Semantics.AtMostOnce)
            [5, 0, 0, 0, 0, 0, 0, 0, 42, 0, 1, 90] "1.2.3.4:5" 11).state
          [5, 0, 0, 0, 0, 0, 0, 0, 42, 0, 1, 90] "1.2.3.4:5" 12).sends =
        [("1.2.3.4:5", bytes)] ∧
      (handlePacket (NewServerState Semantics.AtMostOnce)
        [5, 0, 0, 0, 0, 0, 0, 0, 42, 0, 1, 90] "1.2.3.4:5" 11).sends.getLast? =
        some ("1.2.3.4:5", bytes)) :=
  ⟨rfl, rfl, rfl,
   c1_at_most_once_replay (NewServerState Semantics.AtMostOnce)
     [5, 0, 0, 0, 0, 0, 0, 0, 42, 0, 1, 90] "1.2.3.4:5" 11 12
     { opCode := 5, requestID := 42, confirmationID := "Z" }
     rfl rfl rfl⟩

/-! ## Booking-scan lemmas (shared by C6 and C7) -/

/-- `extractBooking` fails exactly when no booking carries the id. -/
theorem extractBooking_eq_none_iff (bs : List Booking) (c : String) :
    extractBooking bs c = none ↔ findInBookings bs c = none := by
  induction bs with
  | nil => simp [extractBooking, findInBookings]
  | cons b0 rest ih =>
    by_cases h0 : b0.confirmationID = c
    · simp [extractBooking, findInBookings, h0]
    · simp only [extractBooking, findInBookings, h0, if_neg, ite_false]
      cases hE : extractBooking rest c with
      | none => simpa [hE] using ih
      | some p => simp [hE, ← ih]

/-- The booking returned by `extractBooking` is the first one with the id. -/
theorem extractBooking_find (bs : List Booking) (c : String) (b : Booking)
    (rem : List Booking) (h : extractBooking bs c = some (b, rem)) :
    findInBookings bs c = some b := by
  induction bs generalizing rem with
  | nil => simp [extractBooking] at h
  | cons b0 rest ih =>
    by_cases h0 : b0.confirmationID = c
    · simp only [extractBooking, h0, if_pos, Option.some.injEq, Prod.mk.injEq] at h
      obtain ⟨hb, -⟩ := h
      subst hb
      simp [findInBookings, h0]
    · simp only [extractBooking, h0, ite_false] at h
      simp only [findInBookings, h0, ite_false]
      cases hE : extractBooking rest c with
      | none => rw [hE] at h; exact Option.noConfusion h
      | some p =>
        rw [hE] at h
        simp only [Option.map_some, Option.map_some', Option.some.injEq,
          Prod.mk.injEq] at h
        exact ih p.2 (hE.trans (by rw [← h.1]))

/-- Conversely, a found booking can be extracted. -/
theorem find_extractBooking (bs : List Booking) (c : String) (b : Booking)
    (h : findInBookings bs c = some b) :
    ∃ rem, extractBooking bs c = some (b, rem) := by
  induction bs with
  | nil => simp [findInBookings] at h
  | cons b0 rest ih =>
    by_cases h0 : b0.confirmationID = c
    · simp only [findInBookings, h0, if_pos, Option.some.injEq] at h
      subst h
      exact ⟨rest, by simp [extractBooking, h0]⟩
    · simp only [findInBookings, h0, ite_false] at h
      obtain ⟨rem, hrem⟩ := ih h
      exact ⟨b0 :: rem, by simp [extractBooking, h0, hrem]⟩

/-- `addInBookings` fails exactly when the id is absent. -/
theorem addInBookings_eq_none (bs : List Booking) (c pn : String)
    (h : findInBookings bs c = none) : addInBookings bs c pn = none := by
  induction bs with
  | nil => simp [addInBookings]
  | cons b0 rest ih =>
    by_cases h0 : b0.confirmationID = c
    · simp [findInBookings, h0] at h
    · simp only [findInBookings, h0, ite_false] at h
      simp [addInBookings, h0, ih h]

/-- `addInBookings` appends the participant to the first booking with the id
and that booking remains the first one found. -/
theorem addInBookings_spec (bs : List Booking) (c pn : String) (b : Booking)
    (h : findInBookings bs c = some b) :
    ∃ bs2, addInBookings bs c pn = some bs2 ∧
      findInBookings bs2 c = some { b with participants := b.participants ++ [pn] } := by
  induction bs with
  | nil => simp [findInBookings] at h
  | cons b0 rest ih =>
    by_cases h0 : b0.confirmationID = c
    · simp only [findInBookings, h0, if_pos, Option.some.injEq] at h
      subst h
      refine ⟨{ b0 with participants := b0.participants ++ [pn] } :: rest, ?_, ?_⟩
      · simp [addInBookings, h0]
      · simp [findInBookings, h0]
    · simp only [findInBookings, h0, ite_false] at h
      obtain ⟨bs2, ha, hf⟩ := ih h
      refine ⟨b0 :: bs2, ?_, ?_⟩
      · simp [addInBookings, h0, ha]
      · simp [findInBookings, h0, hf]

/-- Store-level version of `addInBookings_spec`: `addInStore` succeeds on the
facility holding the first occurrence of the id and afterwards the found
booking carries one more participant. -/
theorem addInStore_spec (s : Store) (c pn : String) (b : Booking)
    (h : findBooking s c = some b) :
    ∃ s2 fn, addInStore s c pn = some (s2, fn) ∧
      findBooking s2 c = some { b with participants := b.participants ++ [pn] } := by
  induction s with
  | nil => simp [findBooking, locateBooking] at h
  | cons q rest ih =>
    obtain ⟨n0, fac⟩ := q
    cases hE : extractBooking fac.bookings c with
    | some p =>
      obtain ⟨b0, rem0⟩ := p
      have hb : b0 = b := by
        simpa [findBooking, locateBooking, hE] using h
      subst hb
      have hfb : findInBookings fac.bookings c = some b0 :=
        extractBooking_find _ _ _ _ hE
      obtain ⟨bs2, ha, hf⟩ := addInBookings_spec fac.bookings c pn b0 hfb
      refine ⟨(n0, ⟨fac.name, bs2⟩) :: rest, n0, ?_, ?_⟩
      · simp [addInStore, ha]
      · obtain ⟨rem2, hrem2⟩ := find_extractBooking bs2 c _ hf
        simp [findBooking, locateBooking, hrem2]
    | none =>
      have hfn : findInBookings fac.bookings c = none :=
        (extractBooking_eq_none_iff _ _).1 hE
      have hrest : findBooking rest c = some b := by
        simpa [findBooking, locateBooking, hE] using h
      obtain ⟨s2, fn, ha, hf⟩ := ih hrest
      refine ⟨(n0, fac) :: s2, fn, ?_, ?_⟩
      · simp [addInStore, addInBookings_eq_none _ _ _ hfn, ha]
      · obtain ⟨fn2, b2, rem2, hloc2⟩ :
            ∃ fn2 b2 rem2, locateBooking s2 c = some (fn2, b2, rem2) := by
          rcases hl : locateBooking s2 c with _ | ⟨fn2, b2, rem2⟩
          · simp [findBooking, hl] at hf
          · exact ⟨fn2, b2, rem2, rfl⟩
        have : b2 = { b with participants := b.participants ++ [pn] } := by
          simpa [findBooking, hloc2] using hf
        simp [findBooking, locateBooking, hE, hloc2, this]

/-! ## C6 — AddParticipant is non-idempotent under at-least-once -/

/-- C6: on any store containing a booking with confirmation id `c`, executing
`AddParticipant(c, n)` twice (as at-least-once does for a retransmitted
request) returns status 0 both times and leaves that booking's participant
list grown by exactly the two entries `[n, n]`. -/
theorem c6_add_participant_twice (st : OpState) (now1 now2 : Int) (c n : String)
    (b : Booking) (h : findBooking st.store c = some b) :
    (handleAddParticipant st now1 c n).status = 0 ∧
    (handleAddParticipant (handleAddParticipant st now1 c n).st now2 c n).status = 0 ∧
    findBooking
        (handleAddParticipant (handleAddParticipant st now1 c n).st now2 c n).st.store
        c =
      some { b with participants := b.participants ++ [n, n] } := by
  obtain ⟨s2, fn, ha, hf2⟩ := addInStore_spec st.store c n b h
  obtain ⟨s3, fn2, ha2, hf3⟩ :=
    addInStore_spec s2 c n { b with participants := b.participants ++ [n] } hf2
  have step : ∀ (st0 : OpState) (now : Int) (s0 : Store) (fn0 : String),
      addInStore st0.store c n = some (s0, fn0) →
      (handleAddParticipant st0 now c n).st.store = s0 ∧
      (handleAddParticipant st0 now c n).status = 0 := by
    intro st0 now s0 fn0 ha0
    simp [handleAddParticipant, ha0, notifySubscribers]
  have A1 := step st now1 s2 fn ha
  have A2 := step (handleAddParticipant st now1 c n).st now2 s3 fn2
    (by rw [A1.1]; exact ha2)
  refine ⟨A1.2, A2.2, ?_⟩
  rw [A2.1, hf3]
  simp

/-- Witness for C6: adding `alice` twice to seeded booking `BKG-10000`. -/
theorem c6_witness :
    findBooking seededStore "BKG-10000" = some ⟨"BKG-10000", 0, 9, 0, 0, 10, 0, []⟩ ∧
    ((handleAddParticipant ⟨seededStore, []⟩ 1 "BKG-10000" "alice").status = 0 ∧
     (handleAddParticipant (handleAddParticipant ⟨seededStore, []⟩ 1 "BKG-10000"
        "alice").st 2 "BKG-10000" "alice").status = 0 ∧
     findBooking (handleAddParticipant (handleAddParticipant ⟨seededStore, []⟩ 1
          "BKG-10000" "alice").st 2 "BKG-10000" "alice").st.store "BKG-10000" =
       some ⟨"BKG-10000", 0, 9, 0, 0, 10, 0, ["alice", "alice"]⟩) :=
  ⟨by decide,
   c6_add_participant_twice ⟨seededStore, []⟩ 1 2 "BKG-10000" "alice"
     ⟨"BKG-10000", 0, 9, 0, 0, 10, 0, []⟩ (by decide)⟩

/-! ## C7 — Cancel idempotence

The claim quantifies over *any* store.  A store in which two bookings share
one confirmation id (producible in principle, since `BKG-<UnixNano>` ids are
only as unique as the clock) refutes it: each `Cancel` removes one booking,
so the second call changes the store again and reports success rather than
`not found`.  With confirmation ids occurring at most once — the intended
situation, and an invariant of the seeded store — idempotence holds. -/

/-- C7 counterexample: on a store holding two bookings with confirmation id
`X` in one facility, `Cancel(X)` twice does not equal `Cancel(X)` once, and
the second reply reports a successful cancellation, not `not found`. -/
theorem c7_counterexample :
    (handleCancelBooking
        (handleCancelBooking
          ⟨[("R", ⟨"R", [⟨"X", 0, 9, 0, 0, 10, 0, []⟩,
                         ⟨"X", 1, 9, 0, 1, 10, 0, []⟩]⟩)], []⟩ 0 "X").st
        0 "X").st.store ≠
      (handleCancelBooking
        ⟨[("R", ⟨"R", [⟨"X", 0, 9, 0, 0, 10, 0, []⟩,
                       ⟨"X", 1, 9, 0, 1, 10, 0, []⟩]⟩)], []⟩ 0 "X").st.store ∧
    (handleCancelBooking
        (handleCancelBooking
          ⟨[("R", ⟨"R", [⟨"X", 0, 9, 0, 0, 10, 0, []⟩,
                         ⟨"X", 1, 9, 0, 1, 10, 0, []⟩]⟩)], []⟩ 0 "X").st
        0 "X").msg = "Canceled booking X" := by
  decide

/-- Extracting a booking removes exactly one occurrence of the id. -/
theorem extractBooking_countP (bs : List Booking) (c : String) (b : Booking)
    (rem : List Booking) (h : extractBooking bs c = some (b, rem)) :
    bs.countP (fun b0 => decide (b0.confirmationID = c)) =
      rem.countP (fun b0 => decide (b0.confirmationID = c)) + 1 := by
  induction bs generalizing rem with
  | nil => simp [extractBooking] at h
  | cons b0 rest ih =>
    by_cases h0 : b0.confirmationID = c
    · simp only [extractBooking, h0, if_pos, Option.some.injEq, Prod.mk.injEq] at h
      obtain ⟨-, hr⟩ := h
      subst hr
      simp [List.countP_cons, h0]
    · simp only [extractBooking, h0, ite_false] at h
      cases hE : extractBooking rest c with
      | none => rw [hE] at h; exact Option.noConfusion h
      | some p =>
        rw [hE] at h
        simp only [Option.map_some, Option.map_some', Option.some.injEq,
          Prod.mk.injEq] at h
        obtain ⟨hb, hr⟩ := h
        subst hr
        have := ih p.2 (hE.trans (by rw [← hb]))
        simp [List.countP_cons, h0, this]

/-- A facility with no occurrence of the id holds no booking with it. -/
theorem findInBookings_of_countP_zero (bs : List Booking) (c : String)
    (h : bs.countP (fun b0 => decide (b0.confirmationID = c)) = 0) :
    findInBookings bs c = none := by
  induction bs with
  | nil => simp [findInBookings]
  | cons b0 rest ih =>
    by_cases h0 : b0.confirmationID = c
    · simp [List.countP_cons, h0] at h
    · simp only [List.countP_cons, h0] at h
      simp only [decide_eq_true_eq, if_neg h0, Nat.add_zero] at h
      simp [findInBookings, h0, ih h]

/-- Cancelling removes exactly one occurrence of the id from the store. -/
theorem cancelInStore_countID (s : Store) (c : String) (s2 : Store) (fn : String)
    (h : cancelInStore s c = some (s2, fn)) :
    countID s c = countID s2 c + 1 := by
  induction s generalizing s2 with
  | nil => simp [cancelInStore] at h
  | cons q rest ih =>
    obtain ⟨n0, fac⟩ := q
    cases hE : extractBooking fac.bookings c with
    | some p =>
      obtain ⟨b0, rem0⟩ := p
      simp only [cancelInStore, hE, Option.some.injEq, Prod.mk.injEq] at h
      obtain ⟨hs, -⟩ := h
      subst hs
      have := extractBooking_countP fac.bookings c b0 rem0 hE
      simp [countID, this]
      omega
    | none =>
      simp only [cancelInStore, hE] at h
      cases hC : cancelInStore rest c with
      | none => rw [hC] at h; exact Option.noConfusion h
      | some r =>
        rw [hC] at h
        simp only [Option.map_some, Option.map_some', Option.some.injEq,
          Prod.mk.injEq] at h
        obtain ⟨hs, hf⟩ := h
        subst hs
        have := ih r.1 (hC.trans (by rw [← hf]))
        simp [countID] at this ⊢
        omega

/-- A store with no occurrence of the id holds no booking with it. -/
theorem findBooking_of_countID_zero (s : Store) (c : String)
    (h : countID s c = 0) : findBooking s c = none := by
  induction s with
  | nil => simp [findBooking, locateBooking]
  | cons q rest ih =>
    obtain ⟨n0, fac⟩ := q
    simp only [countID, List.map_cons, List.sum_cons, Nat.add_eq_zero] at h
    have h1 : findInBookings fac.bookings c = none :=
      findInBookings_of_countP_zero fac.bookings c h.1
    have h2 : findBooking rest c = none := ih (by simpa [countID] using h.2)
    have hE : extractBooking fac.bookings c = none :=
      (extractBooking_eq_none_iff _ _).2 h1
    simpa [findBooking, locateBooking, hE] using h2

/-- A store with no booking carrying the id cannot cancel it. -/
theorem cancelInStore_eq_none (s : Store) (c : String)
    (h : findBooking s c = none) : cancelInStore s c = none := by
  induction s with
  | nil => simp [cancelInStore]
  | cons q rest ih =>
    obtain ⟨n0, fac⟩ := q
    cases hE : extractBooking fac.bookings c with
    | some p => simp [findBooking, locateBooking, hE] at h
    | none =>
      have hrest : findBooking rest c = none := by
        simpa [findBooking, locateBooking, hE] using h
      simp [cancelInStore, hE, ih hrest]

/-- C7 (amended): on any store in which at most one booking carries the
confirmation id `c`, `Cancel(c)` twice leaves exactly the state one
`Cancel(c)` leaves; both replies carry status 0 and the second one reports
`not found (already canceled?)`. -/
theorem c7_cancel_idempotent (st : OpState) (now1 now2 : Int) (c : String)
    (h : countID st.store c ≤ 1) :
    (handleCancelBooking (handleCancelBooking st now1 c).st now2 c).st =
      (handleCancelBooking st now1 c).st ∧
    (handleCancelBooking st now1 c).status = 0 ∧
    (handleCancelBooking (handleCancelBooking st now1 c).st now2 c).status = 0 ∧
    (handleCancelBooking (handleCancelBooking st now1 c).st now2 c).msg =
      "Booking " ++ c ++ " not found (already canceled?)" := by
  cases hc : cancelInStore st.store c with
  | none =>
    have e1 : handleCancelBooking st now1 c =
        ⟨st, [], "Booking " ++ c ++ " not found (already canceled?)", 0⟩ := by
      simp [handleCancelBooking, hc]
    rw [e1]
    simp [handleCancelBooking, hc]
  | some r =>
    obtain ⟨s2, fn⟩ := r
    have e1 : (handleCancelBooking st now1 c).st.store = s2 ∧
        (handleCancelBooking st now1 c).status = 0 := by
      simp [handleCancelBooking, hc, notifySubscribers]
    have hcount : countID s2 c = 0 := by
      have := cancelInStore_countID st.store c s2 fn hc
      omega
    have hnone : cancelInStore (handleCancelBooking st now1 c).st.store c = none := by
      rw [e1.1]
      exact cancelInStore_eq_none s2 c (findBooking_of_countID_zero s2 c hcount)
    have step : ∀ (st0 : OpState) (now : Int), cancelInStore st0.store c = none →
        handleCancelBooking st0 now c =
          ⟨st0, [], "Booking " ++ c ++ " not found (already canceled?)", 0⟩ := by
      intro st0 now h0
      simp [handleCancelBooking, h0]
    rw [step (handleCancelBooking st now1 c).st now2 hnone]
    exact ⟨rfl, e1.2, rfl, rfl⟩

/-- Witness for C7: cancelling seeded booking `BKG-20000` twice. -/
theorem c7_witness :
    countID seededStore "BKG-20000" ≤ 1 ∧
    ((handleCancelBooking (handleCancelBooking ⟨seededStore, []⟩ 1 "BKG-20000").st
        2 "BKG-20000").st =
      (handleCancelBooking ⟨seededStore, []⟩ 1 "BKG-20000").st ∧
    (handleCancelBooking ⟨seededStore, []⟩ 1 "BKG-20000").status = 0 ∧
    (handleCancelBooking (handleCancelBooking ⟨seededStore, []⟩ 1 "BKG-20000").st
        2 "BKG-20000").status = 0 ∧
    (handleCancelBooking (handleCancelBooking ⟨seededStore, []⟩ 1 "BKG-20000").st
        2 "BKG-20000").msg =
      "Booking " ++ "BKG-20000" ++ " not found (already canceled?)") :=
  ⟨by decide, c7_cancel_idempotent ⟨seededStore, []⟩ 1 2 "BKG-20000" (by decide)⟩

/-! ## C9 — unknown opcode

`UnmarshalRequest` rejects opcodes outside 1..6 (`common/marshal.go` default
branch), and `handlePacket` drops datagrams that fail to unmarshal without
sending anything (ops.go 464-468).  The `Unknown OpCode <n>` reply built by
`processOperation`'s default branch (ops.go 972-975) is therefore
unreachable from the datagram path. -/

/-- C9 counterexample: a datagram with opcode byte 9 is rejected by the
decoder and dropped — no reply is sent and the server state is unchanged —
contradicting the claimed status `-1` reply. -/
theorem c9_counterexample :
    UnmarshalRequest [9, 0, 0, 0, 0, 0, 0, 0, 0] = .error "unknown OpCode 9" ∧
    handlePacket (NewServerState Semantics.AtMostOnce) [9, 0, 0, 0, 0, 0, 0, 0, 0]
        "1.2.3.4:5" 0 =
      ⟨NewServerState Semantics.AtMostOnce, []⟩ :=
  ⟨rfl, rfl⟩

/-- C9 (amended): a request datagram whose opcode byte is outside 1..6 fails
decoding and is dropped — no reply datagram is sent and no state changes;
the dispatcher's default branch, which would reply status `-1` with data
`Unknown OpCode <n>`, is unreachable from the datagram path (shown here by
evaluating `processOperation` directly on such a request). -/
theorem c9_unknown_opcode_dropped
    (s : ServerState) (p : String) (now : Int) (op : Nat) (rest : List Nat)
    (h : ¬ (op = 1 ∨ op = 2 ∨ op = 3 ∨ op = 4 ∨ op = 5 ∨ op = 6)) :
    handlePacket s (op :: rest) p now = ⟨s, []⟩ ∧
    ∀ (st : OpState) (req : RequestMessage), req.opCode = op →
      (processOperation st now p req).reply.status = -1 ∧
      (processOperation st now p req).reply.data = "Unknown OpCode " ++ natToStr op := by
  push_neg at h
  obtain ⟨h1, h2, h3, h4, h5, h6⟩ := h
  have hum : UnmarshalRequest (op :: rest) = .error ("unknown OpCode " ++ natToStr op) ∨
      ∃ e, UnmarshalRequest (op :: rest) = .error e := by
    by_cases hlen : rest.length < 8
    · right
      refine ⟨"data too short for requestID", ?_⟩
      simp [UnmarshalRequest, readU8, takeN, hlen]
    · left
      simp [UnmarshalRequest, readU8, takeN, hlen, OpQueryAvailability,
        OpBookFacility, OpChangeBooking, OpMonitorAvailability, OpCancelBooking,
        OpAddParticipant, h1, h2, h3, h4, h5, h6]
  constructor
  · rcases hum with he | ⟨e, he⟩ <;> simp [handlePacket, he]
  · intro st req hop
    constructor <;>
      simp [processOperation, OpQueryAvailability, OpBookFacility, OpChangeBooking,
        OpMonitorAvailability, OpCancelBooking, OpAddParticipant,
        hop, h1, h2, h3, h4, h5, h6]

/-- Witness for C9 at opcode 9: the datagram is dropped, and the dispatcher
default branch would reply status `-1` with `Unknown OpCode 9`. -/
theorem c9_witness :
    handlePacket (NewServerState Semantics.AtLeastOnce) (9 :: [1, 2, 3])
        "1.2.3.4:5" 0 =
      ⟨NewServerState Semantics.AtLeastOnce, []⟩ ∧
    (processOperation ⟨seededStore, []⟩ 0 "1.2.3.4:5"
        { opCode := 9, requestID := 3 }).reply.status = -1 ∧
    (processOperation ⟨seededStore, []⟩ 0 "1.2.3.4:5"
        { opCode := 9, requestID := 3 }).reply.data = "Unknown OpCode " ++ natToStr 9 :=
  ⟨(c9_unknown_opcode_dropped (NewServerState Semantics.AtLeastOnce) "1.2.3.4:5" 0 9
      [1, 2, 3] (by decide)).1,
   (c9_unknown_opcode_dropped (NewServerState Semantics.AtLeastOnce) "1.2.3.4:5" 0 9
      [1, 2, 3] (by decide)).2 ⟨seededStore, []⟩ { opCode := 9, requestID := 3 } rfl⟩

/-! ## C4 — transactional Change

The conflict path is exactly as claimed (booking restored verbatim, no other
booking touched, status 1) except that restoration appends the booking at
the end of the facility's list, so the multiset of bookings is preserved.
The success path stores `fromAbsoluteMinutes` of the shifted values, which
equals the shifted interval only while it stays inside the representable
week `[0, 256*1440)`; outside it the `uint8` casts wrap (see C2), so the
claim's "reinserted with the shifted times" fails at offset `-541`. -/

/-- C4 counterexample: `Change("BKG-10000", -541)` on the seeded store finds
no conflict and returns status 0, but the reinserted booking occupies the
absolute interval `[255, 59)`, not the shifted interval `[-1, 59)` that the
claim requires. -/
theorem c4_counterexample :
    (handleChangeBooking ⟨seededStore, []⟩ 0 "BKG-10000" (-541)).status = 0 ∧
    (findBooking (handleChangeBooking ⟨seededStore, []⟩ 0 "BKG-10000"
        (-541)).st.store "BKG-10000").map (fun b => (absStart b, absEnd b)) =
      some (255, 59) ∧
    ((255 : Int), (59 : Int)) ≠ (540 + (-541 : Int), 600 + (-541 : Int)) := by
  decide

/-- Converting an in-range absolute minute count to `(day, hour, minute)` and
back is lossless; `368640 = 256 * 1440` is where the `uint8` day wraps. -/
theorem fromAbs_toAbs (t : Int) (h0 : 0 ≤ t) (h1 : t < 368640) :
    toAbsoluteMinutes (fromAbsoluteMinutes t).1 (fromAbsoluteMinutes t).2.1
      (fromAbsoluteMinutes t).2.2 = t := by
  have h2 : (0 : Int) ≤ t % 1440 := Int.emod_nonneg t (by norm_num)
  simp only [fromAbsoluteMinutes, toAbsoluteMinutes, u8ofInt]
  rw [Int.tdiv_eq_ediv h0 (by norm_num), Int.tmod_eq_emod h0 (by norm_num),
    Int.tdiv_eq_ediv h2 (by norm_num), Int.tmod_eq_emod h2 (by norm_num)]
  omega

/-- `wrap32` is the identity on the `int32` range. -/
theorem wrap32_eq_self (x : Int) (h1 : -2 ^ 31 ≤ x) (h2 : x < 2 ^ 31) :
    wrap32 x = x := by
  unfold wrap32
  omega

/-- Extraction permutes: the original booking list is, up to order, the
extracted booking in front of the remainder. -/
theorem extractBooking_perm (bs : List Booking) (c : String) (b : Booking)
    (rem : List Booking) (h : extractBooking bs c = some (b, rem)) :
    bs.Perm (b :: rem) := by
  induction bs generalizing rem with
  | nil => simp [extractBooking] at h
  | cons b0 rest ih =>
    by_cases h0 : b0.confirmationID = c
    · simp only [extractBooking, h0, if_pos, Option.some.injEq, Prod.mk.injEq] at h
      obtain ⟨hb, hr⟩ := h
      subst hb; subst hr
      exact List.Perm.refl _
    · simp only [extractBooking, h0, ite_false] at h
      cases hE : extractBooking rest c with
      | none => rw [hE] at h; exact Option.noConfusion h
      | some p =>
        rw [hE] at h
        simp only [Option.map_some, Option.map_some', Option.some.injEq,
          Prod.mk.injEq] at h
        obtain ⟨hb, hr⟩ := h
        subst hr
        have hperm := ih p.2 (hE.trans (by rw [← hb]))
        exact (hperm.cons b0).trans (List.Perm.swap b b0 p.2)

/-- A facility without the confirmation id contributes nothing to
`changeFacility`. -/
theorem changeFacility_eq_none (fac : FacilityInfo) (c : String) (off : Int)
    (h : findInBookings fac.bookings c = none) :
    changeFacility fac c off = none := by
  simp [changeFacility, (extractBooking_eq_none_iff _ _).2 h]

/-- `changeInStore` applies `changeFacility` to the first facility containing
the id and leaves every other facility untouched. -/
theorem changeInStore_append (pre post : Store) (fn : String)
    (fac : FacilityInfo) (c : String) (off : Int)
    (res : FacilityInfo × String × Int × Option String)
    (hpre : ∀ q ∈ pre, findInBookings q.2.bookings c = none)
    (h : changeFacility fac c off = some res) :
    changeInStore (pre ++ (fn, fac) :: post) c off =
      some (pre ++ (fn, res.1) :: post, fn, res.2.1, res.2.2.1, res.2.2.2) := by
  induction pre with
  | nil => simp [changeInStore, h]
  | cons q pre' ih =>
    have hq := hpre q (List.mem_cons_self ..)
    have hrest : ∀ r ∈ pre', findInBookings r.2.bookings c = none :=
      fun r hr => hpre r (List.mem_cons_of_mem _ hr)
    obtain ⟨n0, fac0⟩ := q
    simp [changeInStore, changeFacility_eq_none fac0 c off hq, ih hrest]

/-- C4 (amended): locate the booking `b` with id `c` (first facility in map
order, `rem` its remaining bookings).  If the shifted interval is non-empty
and overlaps a remaining booking, the handler returns status 1, restores `b`
verbatim at the end of the facility's list (same multiset of bookings), and
touches nothing else.  If the shifted interval is non-empty, within the
representable week, and overlap-free, the handler returns status 0 and
reinserts a booking with the same id and participant list occupying exactly
the shifted interval. -/
theorem c4_change_transactional
    (subs : List MonitorRegistration) (now : Int) (c : String) (offset : Int)
    (pre post : Store) (fn : String) (fac : FacilityInfo) (b : Booking)
    (rem : List Booking)
    (hpre : ∀ q ∈ pre, findInBookings q.2.bookings c = none)
    (hex : extractBooking fac.bookings c = some (b, rem)) :
    ((wrap32 (absStart b + offset) < wrap32 (absEnd b + offset) ∧
      ∃ bk ∈ rem, timesOverlap (wrap32 (absStart b + offset))
        (wrap32 (absEnd b + offset)) (absStart bk) (absEnd bk)) →
      (handleChangeBooking ⟨pre ++ (fn, fac) :: post, subs⟩ now c offset).status = 1 ∧
      (handleChangeBooking ⟨pre ++ (fn, fac) :: post, subs⟩ now c offset).st.store =
        pre ++ (fn, ⟨fac.name, rem ++ [b]⟩) :: post ∧
      (rem ++ [b]).Perm fac.bookings) ∧
    ((absStart b + offset < absEnd b + offset ∧
      0 ≤ absStart b + offset ∧ absEnd b + offset < 368640 ∧
      ∀ bk ∈ rem, ¬ timesOverlap (absStart b + offset) (absEnd b + offset)
        (absStart bk) (absEnd bk)) →
      ∃ b2,
        (handleChangeBooking ⟨pre ++ (fn, fac) :: post, subs⟩ now c offset).status =
          0 ∧
        (handleChangeBooking ⟨pre ++ (fn, fac) :: post, subs⟩ now c
            offset).st.store =
          pre ++ (fn, ⟨fac.name, rem ++ [b2]⟩) :: post ∧
        b2.confirmationID = c ∧ b2.participants = b.participants ∧
        absStart b2 = absStart b + offset ∧ absEnd b2 = absEnd b + offset) := by
  constructor
  · rintro ⟨hlt, bk, hbk, hov⟩
    have hno : ¬ (wrap32 (absEnd b + offset) ≤ wrap32 (absStart b + offset)) :=
      not_le.2 hlt
    have hany : (rem.any fun bk0 => decide (timesOverlap
        (wrap32 (absStart b + offset)) (wrap32 (absEnd b + offset))
        (absStart bk0) (absEnd bk0))) = true :=
      List.any_eq_true.2 ⟨bk, hbk, by simpa using hov⟩
    have hcf : changeFacility fac c offset =
        some (⟨fac.name, rem ++ [b]⟩, "Time conflict with an existing booking.",
          1, none) := by
      simp [changeFacility, hex, hno, hany]
    have hstore := changeInStore_append pre post fn fac c offset _ hpre hcf
    refine ⟨?_, ?_, ?_⟩
    · simp [handleChangeBooking, hstore]
    · simp [handleChangeBooking, hstore]
    · exact (List.perm_append_singleton b rem).trans
        (extractBooking_perm fac.bookings c b rem hex).symm
  · rintro ⟨hlt, hs0, he0, hnov⟩
    have hws : wrap32 (absStart b + offset) = absStart b + offset :=
      wrap32_eq_self _ (by omega) (by omega)
    have hwe : wrap32 (absEnd b + offset) = absEnd b + offset :=
      wrap32_eq_self _ (by omega) (by omega)
    have hno : ¬ (wrap32 (absEnd b + offset) ≤ wrap32 (absStart b + offset)) := by
      rw [hws, hwe]; omega
    have hany : (rem.any fun bk0 => decide (timesOverlap
        (wrap32 (absStart b + offset)) (wrap32 (absEnd b + offset))
        (absStart bk0) (absEnd bk0))) = false := by
      rw [hws, hwe]
      rcases hA : rem.any fun bk0 => decide (timesOverlap (absStart b + offset)
        (absEnd b + offset) (absStart bk0) (absEnd bk0)) with _ | _
      · rfl
      · obtain ⟨bk, hbk, hov⟩ := List.any_eq_true.1 hA
        exact absurd (of_decide_eq_true hov) (hnov bk hbk)
    have hcf : changeFacility fac c offset =
        some (⟨fac.name, rem ++
            [⟨c, (fromAbsoluteMinutes (wrap32 (absStart b + offset))).1,
              (fromAbsoluteMinutes (wrap32 (absStart b + offset))).2.1,
              (fromAbsoluteMinutes (wrap32 (absStart b + offset))).2.2,
              (fromAbsoluteMinutes (wrap32 (absEnd b + offset))).1,
              (fromAbsoluteMinutes (wrap32 (absEnd b + offset))).2.1,
              (fromAbsoluteMinutes (wrap32 (absEnd b + offset))).2.2,
              b.participants⟩]⟩,
          "Changed booking " ++ c ++ " by offset " ++ intToStr offset ++
            " minutes successfully.", 0,
          some ("Booking " ++ c ++ " changed using offset " ++ intToStr offset ++
            " min: Day " ++
            natToStr (fromAbsoluteMinutes (wrap32 (absStart b + offset))).1 ++
            " (" ++ pad2 (fromAbsoluteMinutes (wrap32 (absStart b + offset))).2.1 ++
            ":" ++ pad2 (fromAbsoluteMinutes (wrap32 (absStart b + offset))).2.2 ++
            ") -> Day " ++
            natToStr (fromAbsoluteMinutes (wrap32 (absEnd b + offset))).1 ++
            " (" ++ pad2 (fromAbsoluteMinutes (wrap32 (absEnd b + offset))).2.1 ++
            ":" ++ pad2 (fromAbsoluteMinutes (wrap32 (absEnd b + offset))).2.2 ++
            ")")) := by
      simp [changeFacility, hex, hno, hany]
    have hstore := changeInStore_append pre post fn fac c offset _ hpre hcf
    refine ⟨⟨c, (fromAbsoluteMinutes (wrap32 (absStart b + offset))).1,
      (fromAbsoluteMinutes (wrap32 (absStart b + offset))).2.1,
      (fromAbsoluteMinutes (wrap32 (absStart b + offset))).2.2,
      (fromAbsoluteMinutes (wrap32 (absEnd b + offset))).1,
      (fromAbsoluteMinutes (wrap32 (absEnd b + offset))).2.1,
      (fromAbsoluteMinutes (wrap32 (absEnd b + offset))).2.2,
      b.participants⟩, ?_, ?_, rfl, rfl, ?_, ?_⟩
    · simp [handleChangeBooking, hstore, notifySubscribers]
    · simp [handleChangeBooking, hstore, notifySubscribers]
    · show toAbsoluteMinutes _ _ _ = _
      rw [hws]
      exact fromAbs_toAbs _ hs0 (by omega)
    · show toAbsoluteMinutes _ _ _ = _
      rw [hwe]
      exact fromAbs_toAbs _ (by omega) he0

/-- Witness for C4: shifting seeded booking `BKG-10000` by +60 minutes
(success path). -/
theorem c4_witness :
    ∃ b2,
      (handleChangeBooking ⟨seededStore, []⟩ 7 "BKG-10000" 60).status = 0 ∧
      (handleChangeBooking ⟨seededStore, []⟩ 7 "BKG-10000" 60).st.store =
        [] ++ ("RoomA", ⟨"RoomA",
          [⟨"BKG-10001", 1, 14, 0, 1, 15, 30, []⟩] ++ [b2]⟩) ::
          [("Lab1", ⟨"Lab1", [⟨"BKG-20000", 2, 10, 0, 2, 12, 0, []⟩]⟩)] ∧
      b2.confirmationID = "BKG-10000" ∧
      b2.participants = Booking.participants ⟨"BKG-10000", 0, 9, 0, 0, 10, 0, []⟩ ∧
      absStart b2 = absStart ⟨"BKG-10000", 0, 9, 0, 0, 10, 0, []⟩ + 60 ∧
      absEnd b2 = absEnd ⟨"BKG-10000", 0, 9, 0, 0, 10, 0, []⟩ + 60 :=
  (c4_change_transactional [] 7 "BKG-10000" 60 []
    [("Lab1", ⟨"Lab1", [⟨"BKG-20000", 2, 10, 0, 2, 12, 0, []⟩]⟩)] "RoomA"
    ⟨"RoomA", [⟨"BKG-10000", 0, 9, 0, 0, 10, 0, []⟩,
               ⟨"BKG-10001", 1, 14, 0, 1, 15, 30, []⟩]⟩
    ⟨"BKG-10000", 0, 9, 0, 0, 10, 0, []⟩
    [⟨"BKG-10001", 1, 14, 0, 1, 15, 30, []⟩]
    (by simp) rfl).2 ⟨by decide, by decide, by decide, by decide⟩

/-! ## C3 — codec round-trip: primitive lemmas -/

/-- A `w`-byte big-endian encoding has length `w`. -/
theorem bytesBE_length (w n : Nat) : (bytesBE w n).length = w := by
  induction w generalizing n with
  | zero => simp [bytesBE]
  | succ w ih => simp [bytesBE, ih]

/-- Decoding steps through a trailing byte. -/
theorem readBE_append (xs : List Nat) (b : Nat) :
    readBE (xs ++ [b]) = readBE xs * 256 + b := by
  simp [readBE, List.foldl_append]

/-- Big-endian decode inverts encode for values that fit in `w` bytes. -/
theorem readBE_bytesBE (w n : Nat) (h : n < 256 ^ w) :
    readBE (bytesBE w n) = n := by
  induction w generalizing n with
  | zero =>
    simp only [pow_zero, Nat.lt_one_iff] at h
    subst h
    simp [bytesBE, readBE]
  | succ w ih =>
    have hdiv : n / 256 < 256 ^ w := by
      rw [Nat.div_lt_iff_lt_mul (by norm_num)]
      calc n < 256 ^ (w + 1) := h
        _ = 256 ^ w * 256 := by ring
    rw [bytesBE, readBE_append, ih _ hdiv]
    omega

/-- Reading exactly the length of the first summand splits an append. -/
theorem takeN_exact (xs ys : List Nat) (k : Nat) (err : String)
    (h : xs.length = k) : takeN (xs ++ ys) k err = .ok (xs, ys) := by
  subst h
  rw [takeN, if_neg (by simp)]
  rw [List.take_left, List.drop_left]

/-- String encoding preserves length (one byte per modelled character). -/
theorem strToBytes_length (s : String) : (strToBytes s).length = s.length := by
  rw [strToBytes, List.length_map]
  rfl

/-- Decoding the encoded bytes of a string restores it. -/
theorem bytesToStr_strToBytes (s : String) : bytesToStr (strToBytes s) = s := by
  simp only [bytesToStr, strToBytes, List.map_map]
  congr 1
  calc s.data.map (Char.ofNat ∘ Char.toNat)
      = s.data.map id := List.map_congr_left (fun c _ => Char.ofNat_toNat c)
    _ = s.data := List.map_id s.data

/-- `readString` inverts the length-prefixed string encoding emitted by
`writeString`, leaving the trailing bytes untouched. -/
theorem readString_round (s : String) (rest : List Nat)
    (h : s.length ≤ 65535) :
    readString (bytesBE 2 s.length ++ strToBytes s ++ rest) =
      .ok (s, rest) := by
  simp only [readString, List.append_assoc,
    takeN_exact _ _ _ _ (bytesBE_length 2 s.length),
    readBE_bytesBE 2 s.length (by norm_num; omega),
    takeN_exact _ _ _ _ (strToBytes_length s), bytesToStr_strToBytes]

/-- The `uint32` image of an `int32` value fits in 4 bytes. -/
theorem u32ofInt_lt (x : Int) : u32ofInt x < 2 ^ 32 := by
  unfold u32ofInt
  omega

/-- Reinterpreting the `uint32` image of an `int32` value recovers it. -/
theorem i32_u32 (x : Int) (h1 : -2 ^ 31 ≤ x) (h2 : x < 2 ^ 31) :
    i32ofU32 (u32ofInt x) = x := by
  unfold i32ofU32 u32ofInt
  omega

/-- `256^8` is the `uint64` range. -/
theorem pow_256_8 : (256 : Nat) ^ 8 = 2 ^ 64 := by norm_num

/-- `256^4` is the `uint32` range. -/
theorem pow_256_4 : (256 : Nat) ^ 4 = 2 ^ 32 := by norm_num

/-- Reading a `w`-byte number off the stream. -/
theorem takeN_bytesBE (w n : Nat) (ys : List Nat) (err : String) :
    takeN (bytesBE w n ++ ys) w err = .ok (bytesBE w n, ys) :=
  takeN_exact _ _ _ _ (bytesBE_length w n)

/-- Reading the whole remaining stream. -/
theorem takeN_all (xs : List Nat) (err : String) :
    takeN xs xs.length err = .ok (xs, []) := by
  have h := takeN_exact xs [] xs.length err rfl
  simpa using h

/-- `readString_round` in the right-nested associativity simp normal form. -/
theorem readString_round2 (s : String) (rest : List Nat)
    (h : s.length ≤ 65535) :
    readString (bytesBE 2 s.length ++ (strToBytes s ++ rest)) =
      .ok (s, rest) := by
  rw [← List.append_assoc]
  exact readString_round s rest h

/-- `readString_round` with nothing after the string. -/
theorem readString_round0 (s : String) (h : s.length ≤ 65535) :
    readString (bytesBE 2 s.length ++ strToBytes s) = .ok (s, []) := by
  have h2 := readString_round s [] h
  simpa using h2

/-- Round-trip for a well-formed `CancelBooking` request. -/
theorem roundtrip_cancel (rid : Nat) (cid : String) (hr : rid < 2 ^ 64)
    (hc : strWF cid) :
    ∃ bs, MarshalRequest (mkCancelReq rid cid) = .ok bs ∧
      UnmarshalRequest bs = .ok (mkCancelReq rid cid) := by
  refine ⟨_, rfl, ?_⟩
  simp only [mkCancelReq, writeString, List.cons_append, List.append_assoc]
  simp [UnmarshalRequest, readU8, takeN_bytesBE,
    readBE_bytesBE 8 rid (pow_256_8 ▸ hr), readString_round0 cid hc.1,
    OpQueryAvailability, OpBookFacility, OpChangeBooking, OpMonitorAvailability,
    OpCancelBooking, OpAddParticipant]

/-- Reading a `w`-byte number that ends the stream. -/
theorem takeN_bytesBE0 (w n : Nat) (err : String) :
    takeN (bytesBE w n) w err = .ok (bytesBE w n, []) := by
  have h := takeN_bytesBE w n [] err
  simpa using h

/-- Round-trip for a well-formed `QueryAvailability` request. -/
theorem roundtrip_query (rid : Nat) (fn : String) (days : List Nat)
    (hr : rid < 2 ^ 64) (hf : strWF fn) (hd : days.length ≤ 255) :
    ∃ bs, MarshalRequest (mkQueryReq rid fn days) = .ok bs ∧
      UnmarshalRequest bs = .ok (mkQueryReq rid fn days) := by
  have hguard : ¬ days.length > 255 := by omega
  refine ⟨writeString (OpQueryAvailability :: bytesBE 8 rid) fn ++
    [days.length] ++ days, ?_, ?_⟩
  · simp [MarshalRequest, mkQueryReq, hguard]
  · simp only [writeString, List.cons_append, List.append_assoc,
      List.singleton_append]
    simp [UnmarshalRequest, readU8, takeN_bytesBE,
      readBE_bytesBE 8 rid (pow_256_8 ▸ hr),
      readString_round2 fn (days.length :: days) hf.1, takeN_all,
      OpQueryAvailability, OpBookFacility, OpChangeBooking,
      OpMonitorAvailability, OpCancelBooking, OpAddParticipant, mkQueryReq]

/-- Round-trip for a well-formed `BookFacility` request. -/
theorem roundtrip_book (rid : Nat) (fn : String) (sd sh sm ed eh em : Nat)
    (hr : rid < 2 ^ 64) (hf : strWF fn) :
    ∃ bs, MarshalRequest (mkBookReq rid fn sd sh sm ed eh em) = .ok bs ∧
      UnmarshalRequest bs = .ok (mkBookReq rid fn sd sh sm ed eh em) := by
  have htb : takeN [sd, sh, sm, ed, eh, em] 6 "not enough bytes for booking times" =
      .ok ([sd, sh, sm, ed, eh, em], []) := by
    simp [takeN]
  refine ⟨_, rfl, ?_⟩
  simp only [mkBookReq, writeString, List.cons_append, List.append_assoc]
  simp [UnmarshalRequest, readU8, takeN_bytesBE,
    readBE_bytesBE 8 rid (pow_256_8 ▸ hr),
    readString_round2 fn [sd, sh, sm, ed, eh, em] hf.1, htb, List.getD,
    OpQueryAvailability, OpBookFacility, OpChangeBooking,
    OpMonitorAvailability, OpCancelBooking, OpAddParticipant]

/-- Round-trip for a well-formed `ChangeBooking` request. -/
theorem roundtrip_change (rid : Nat) (cid : String) (off : Int)
    (hr : rid < 2 ^ 64) (hc : strWF cid) (h1 : -2 ^ 31 ≤ off)
    (h2 : off < 2 ^ 31) :
    ∃ bs, MarshalRequest (mkChangeReq rid cid off) = .ok bs ∧
      UnmarshalRequest bs = .ok (mkChangeReq rid cid off) := by
  refine ⟨_, rfl, ?_⟩
  simp only [mkChangeReq, writeString, List.cons_append, List.append_assoc]
  simp [UnmarshalRequest, readU8, takeN_bytesBE, takeN_bytesBE0,
    readBE_bytesBE 8 rid (pow_256_8 ▸ hr),
    readString_round2 cid (bytesBE 4 (u32ofInt off)) hc.1,
    readBE_bytesBE 4 (u32ofInt off) (pow_256_4 ▸ u32ofInt_lt off),
    i32_u32 off h1 h2,
    OpQueryAvailability, OpBookFacility, OpChangeBooking,
    OpMonitorAvailability, OpCancelBooking, OpAddParticipant]

/-- Round-trip for a well-formed `MonitorAvailability` request. -/
theorem roundtrip_monitor (rid : Nat) (fn : String) (mp : Nat)
    (hr : rid < 2 ^ 64) (hf : strWF fn) (hm : mp < 2 ^ 32) :
    ∃ bs, MarshalRequest (mkMonitorReq rid fn mp) = .ok bs ∧
      UnmarshalRequest bs = .ok (mkMonitorReq rid fn mp) := by
  refine ⟨_, rfl, ?_⟩
  simp only [mkMonitorReq, writeString, List.cons_append, List.append_assoc]
  simp [UnmarshalRequest, readU8, takeN_bytesBE, takeN_bytesBE0,
    readBE_bytesBE 8 rid (pow_256_8 ▸ hr),
    readString_round2 fn (bytesBE 4 mp) hf.1,
    readBE_bytesBE 4 mp (pow_256_4 ▸ hm),
    OpQueryAvailability, OpBookFacility, OpChangeBooking,
    OpMonitorAvailability, OpCancelBooking, OpAddParticipant]

/-- Round-trip for a well-formed `AddParticipant` request. -/
theorem roundtrip_add (rid : Nat) (cid pn : String) (hr : rid < 2 ^ 64)
    (hc : strWF cid) (hp : strWF pn) :
    ∃ bs, MarshalRequest (mkAddReq rid cid pn) = .ok bs ∧
      UnmarshalRequest bs = .ok (mkAddReq rid cid pn) := by
  refine ⟨_, rfl, ?_⟩
  simp only [mkAddReq, writeString, List.cons_append, List.append_assoc]
  simp [UnmarshalRequest, readU8, takeN_bytesBE,
    readBE_bytesBE 8 rid (pow_256_8 ▸ hr),
    readString_round2 cid (bytesBE 2 pn.length ++ strToBytes pn) hc.1,
    readString_round0 pn hp.1,
    OpQueryAvailability, OpBookFacility, OpChangeBooking,
    OpMonitorAvailability, OpCancelBooking, OpAddParticipant]

/-- Round-trip for a well-formed reply message. -/
theorem roundtrip_reply (rep : ReplyMessage) (h : repWF rep) :
    UnmarshalReply (MarshalReply rep) = .ok rep := by
  obtain ⟨h1, h2, h3, h4, h5⟩ := h
  simp only [MarshalReply, writeString, List.cons_append, List.append_assoc]
  simp [UnmarshalReply, readU8, takeN_bytesBE,
    readBE_bytesBE 8 rep.requestID (pow_256_8 ▸ h1),
    readString_round0 rep.data h5.1,
    readBE_bytesBE 4 (u32ofInt rep.status) (pow_256_4 ▸ u32ofInt_lt rep.status),
    i32_u32 rep.status h3 h4]

/-- C3: every well-formed request round-trips through
`MarshalRequest`/`UnmarshalRequest`, and every well-formed reply round-trips
through `MarshalReply`/`UnmarshalReply`, without error. -/
theorem c3_roundtrip (req : RequestMessage) (rep : ReplyMessage)
    (hreq : reqWF req) (hrep : repWF rep) :
    (∃ bs, MarshalRequest req = .ok bs ∧ UnmarshalRequest bs = .ok req) ∧
    UnmarshalReply (MarshalReply rep) = .ok rep := by
  refine ⟨?_, roundtrip_reply rep hrep⟩
  rcases hreq with ⟨rid, fn, days, hr, hf, hd, _, rfl⟩ |
    ⟨rid, fn, sd, sh, sm, ed, eh, em, hr, hf, _, _, _, _, _, _, rfl⟩ |
    ⟨rid, cid, off, hr, hc, h1, h2, rfl⟩ |
    ⟨rid, fn, mp, hr, hf, hm, rfl⟩ |
    ⟨rid, cid, hr, hc, rfl⟩ |
    ⟨rid, cid, pn, hr, hc, hp, rfl⟩
  · exact roundtrip_query rid fn days hr hf hd
  · exact roundtrip_book rid fn sd sh sm ed eh em hr hf
  · exact roundtrip_change rid cid off hr hc h1 h2
  · exact roundtrip_monitor rid fn mp hr hf hm
  · exact roundtrip_cancel rid cid hr hc
  · exact roundtrip_add rid cid pn hr hc hp

/-- Witness for C3: a concrete `BookFacility` request and a concrete reply
with a negative status. -/
theorem c3_witness :
    reqWF (mkBookReq 42 "RoomA" 0 11 0 0 12 30) ∧
    repWF ⟨7, 3, -5, "hi"⟩ ∧
    ((∃ bs, MarshalRequest (mkBookReq 42 "RoomA" 0 11 0 0 12 30) = .ok bs ∧
        UnmarshalRequest bs = .ok (mkBookReq 42 "RoomA" 0 11 0 0 12 30)) ∧
      UnmarshalReply (MarshalReply ⟨7, 3, -5, "hi"⟩) = .ok ⟨7, 3, -5, "hi"⟩) :=
  have hq : reqWF (mkBookReq 42 "RoomA" 0 11 0 0 12 30) :=
    Or.inr (Or.inl ⟨42, "RoomA", 0, 11, 0, 0, 12, 30, by norm_num,
      ⟨by decide, by decide⟩, by norm_num, by norm_num, by norm_num,
      by norm_num, by norm_num, by norm_num, rfl⟩)
  have hp : repWF ⟨7, 3, -5, "hi"⟩ :=
    ⟨by norm_num, by norm_num, by norm_num, by norm_num, by decide, by decide⟩
  ⟨hq, hp, c3_roundtrip (mkBookReq 42 "RoomA" 0 11 0 0 12 30) ⟨7, 3, -5, "hi"⟩
    hq hp⟩

end FBS
